import Mathlib

/-!
Verification of the HTML sanitation and content-region engine of
`Backend/Scraper.py` (BeautifulSoup-based DOM filtering, main-content
extraction and region splicing).

The DOM is embedded shallowly: a parsed document is a forest of nodes
(`List Node`), mirroring a `BeautifulSoup` object's `contents`.  Each
filtering pass of the Flask route `clean_html` (the rule-based portion,
source lines 684-818) is translated into a pure tree transformation;
BeautifulSoup's `find` / `find_all` / `decompose` / `replace_with`
idioms become the generic pre-order traversals `findFirstL`,
`removeAllL`, `removeFirstL`, `replaceFirstL`, `modifyFirstL` below.
-/

/-- A DOM node: an element with a tag name, an ordered attribute list
(keys unique, as in a BeautifulSoup `Tag.attrs` dict) and children, or a
text node (`NavigableString`). -/
inductive Node where
  | text (s : String)
  | elem (name : String) (attrs : List (String × String)) (children : List Node)

/-- First value bound to a key in an attribute list (`Tag.attrs` lookup). -/
def lookupA (k : String) : List (String × String) → Option String
  | [] => none
  | (k₂, v) :: rest => if k₂ == k then some v else lookupA k rest

/-- `tag.get(k)` on an element; `None` on a text node. -/
def getAttr (k : String) : Node → Option String
  | .text _ => none
  | .elem _ a _ => lookupA k a

/-- `tag.name == s` (text nodes have no matching name). -/
def isNamed (s : String) : Node → Bool
  | .text _ => false
  | .elem nm _ _ => nm == s

/-- Is the node a text node? -/
def isTextNode : Node → Bool
  | .text _ => true
  | .elem _ _ _ => false

mutual
/-- `soup.find(...)`: first node (`findFirstN`: within one node,
`findFirstL`: within a forest), in pre-order (document order),
satisfying `p`. -/
def findFirstN (p : Node → Bool) : Node → Option Node
  | .text s => if p (.text s) then some (.text s) else none
  | .elem nm a gc =>
      if p (.elem nm a gc) then some (.elem nm a gc) else findFirstL p gc
def findFirstL (p : Node → Bool) : List Node → Option Node
  | [] => none
  | c :: cs =>
      match findFirstN p c with
      | some x => some x
      | none => findFirstL p cs
end

mutual
/-- `for e in soup.find_all(...): e.decompose()`: remove every node
satisfying `p`, recursing into the children of kept elements.  Matches
BeautifulSoup's behaviour of a snapshot `find_all` followed by
`decompose` calls: descendants of a removed node vanish with it. -/
def removeAllN (p : Node → Bool) : Node → Option Node
  | .text s => if p (.text s) then none else some (.text s)
  | .elem nm a gc =>
      if p (.elem nm a gc) then none else some (.elem nm a (removeAllL p gc))
def removeAllL (p : Node → Bool) : List Node → List Node
  | [] => []
  | c :: cs =>
      match removeAllN p c with
      | none => removeAllL p cs
      | some c₂ => c₂ :: removeAllL p cs
end

mutual
/-- `soup.find(...).decompose()`: remove the first (pre-order) node
satisfying `p`, if any (`removeFirstN` is only reached under the guard
that the node contains a match; it yields `none` when the node itself
is the match and is dropped). -/
def removeFirstN (p : Node → Bool) : Node → Option Node
  | .text s => if p (.text s) then none else some (.text s)
  | .elem nm a gc =>
      if p (.elem nm a gc) then none
      else some (.elem nm a (removeFirstL p gc))
def removeFirstL (p : Node → Bool) : List Node → List Node
  | [] => []
  | c :: cs =>
      if (findFirstN p c).isSome then
        match removeFirstN p c with
        | none => cs
        | some c₂ => c₂ :: cs
      else c :: removeFirstL p cs
end

mutual
/-- `soup.find(...).replace_with(r)`: replace the first (pre-order) node
satisfying `p` with `r` (`replaceFirstN` is only reached under the guard
that the node contains a match). -/
def replaceFirstN (p : Node → Bool) (r : Node) : Node → Node
  | .text s => if p (.text s) then r else .text s
  | .elem nm a gc =>
      if p (.elem nm a gc) then r else .elem nm a (replaceFirstL p r gc)
def replaceFirstL (p : Node → Bool) (r : Node) : List Node → List Node
  | [] => []
  | c :: cs =>
      if (findFirstN p c).isSome then replaceFirstN p r c :: cs
      else c :: replaceFirstL p r cs
end

mutual
/-- Apply `f` to the first (pre-order) node satisfying `p` (models
in-place mutation of a node found by `soup.find`). -/
def modifyFirstN (p : Node → Bool) (f : Node → Node) : Node → Node
  | .text s => if p (.text s) then f (.text s) else .text s
  | .elem nm a gc =>
      if p (.elem nm a gc) then f (.elem nm a gc)
      else .elem nm a (modifyFirstL p f gc)
def modifyFirstL (p : Node → Bool) (f : Node → Node) : List Node → List Node
  | [] => []
  | c :: cs =>
      if (findFirstN p c).isSome then modifyFirstN p f c :: cs
      else c :: modifyFirstL p f cs
end

mutual
/-- Does `q` hold of every node (all depths)? -/
def allN (q : Node → Bool) : Node → Bool
  | .text s => q (.text s)
  | .elem nm a gc => q (.elem nm a gc) && allB q gc
def allB (q : Node → Bool) : List Node → Bool
  | [] => true
  | c :: cs => allN q c && allB q cs
end

mutual
/-- Number of nodes (all depths) satisfying `q`. -/
def countN (q : Node → Bool) : Node → Nat
  | .text s => if q (.text s) then 1 else 0
  | .elem nm a gc => (if q (.elem nm a gc) then 1 else 0) + countB q gc
def countB (q : Node → Bool) : List Node → Nat
  | [] => 0
  | c :: cs => countN q c + countB q cs
end

mutual
/-- `tag.get_text()`: concatenation of all descendant text, in document
order (BeautifulSoup's default empty separator). -/
def getTextN : Node → String
  | .text s => s
  | .elem _ _ gc => getTextL gc
def getTextL : List Node → String
  | [] => ""
  | c :: cs => getTextN c ++ getTextL cs
end

/-- Python's `needle in hay` contiguous-substring test, on char lists. -/
def listContains (hay needle : List Char) : Bool :=
  if needle.isPrefixOf hay then true
  else
    match hay with
    | [] => false
    | _ :: t => listContains t needle

/-- Python's `needle in hay` on strings. -/
def strContains (hay needle : String) : Bool :=
  listContains hay.toList needle.toList

/-- Python's `str.lower()` (ASCII portion, matching the vendor
signatures being compared). -/
def pyToLower (s : String) : String :=
  String.mk (s.toList.map Char.toLower)

/-- The whitespace class of Python's `str.split` / `str.strip` and of
`\s` in its `re` module (ASCII portion). -/
def isPySpace (c : Char) : Bool :=
  c == ' ' || c == '\t' || c == '\n' || c == '\r' || c == '\x0c' || c == '\x0b'

/-- Worker for Python `str.split()`: split into maximal runs of
non-whitespace characters (`cur` is the reversed current word). -/
def wordsGo (cur : List Char) : List Char → List (List Char)
  | [] => if cur.isEmpty then [] else [cur.reverse]
  | c :: rest =>
      if isPySpace c then
        if cur.isEmpty then wordsGo [] rest
        else cur.reverse :: wordsGo [] rest
      else wordsGo (c :: cur) rest

/-- `" ".join(words)` on char lists. -/
def joinWords : List (List Char) → List Char
  | [] => []
  | [w] => w
  | w :: ws => w ++ ' ' :: joinWords ws

/-- Python `" ".join(s.split())`: collapse every whitespace run to a
single space, dropping leading and trailing whitespace. -/
def pyCollapseWs (s : String) : String :=
  String.mk (joinWords (wordsGo [] s.toList))

/-! ## Signature tables of `clean_html` (Scraper.py lines 712-818) -/

/-- `unwanted_tags` (lines 712-717), removed in this order. -/
def unwanted_tags : List String := ["style", "footer", "iframe", "noscript"]

/-- Tracking/analytics `src` substrings (lines 733-745). -/
def trackerSrcList : List String :=
  ["analytics", "gtag", "google-analytics", "googletagmanager",
   "facebook.net", "fbevents", "connect.facebook",
   "linkedin.com", "li.lms-analytics",
   "reddit", "pixel",
   "pinterest", "pintrk",
   "tiq.sunlife", "utag", "tealium",
   "cookielaw", "onetrust",
   "decibelinsight",
   "go-mpulse", "boomerang",
   "chrome-extension://",
   "coveo"]

/-- Inline tracking call signatures (line 751). -/
def inlineTrackerList : List String :=
  ["utag_data", "fbq(", "gtag(", "_linkedin_data_partner_ids"]

/-- Browser-extension element tag names (line 755). -/
def extensionTagNames : List String :=
  ["grammarly-desktop-integration", "simplify-jobs-page-script"]

/-- Extension-signature class pattern alternatives: the regex
`apolloio|extension-opener|simplify-jobs` of line 759 (compiled without
`re.I`, hence case-sensitive). -/
def extensionClassPatterns : List String :=
  ["apolloio", "extension-opener", "simplify-jobs"]

/-- Cookie-consent element ids removed by `find(id=...)` (line 777). -/
def onetrustIds : List String :=
  ["onetrust-consent-sdk", "onetrust-banner-sdk", "onetrust-pc-sdk"]

/-- Class tokens removed by `find_all(class_=...)` (line 783). -/
def bannerClassNames : List String := ["cookie", "banner"]

/-- `attrs_to_remove`: the vendor data-attribute denylist (lines 804-810). -/
def attrs_to_remove : List String :=
  ["data-sl-aem-component", "data-sl-component", "data-cmp-hook-accordion",
   "data-bs-target", "data-bs-toggle", "data-bs-dismiss", "data-class",
   "data-class-icon", "data-parsley-validate", "data-parsley-error-message",
   "data-parsley-id", "data-parsley-pattern", "data-parsley-pattern-message",
   "data-parsley-required", "data-parsley-required-message", "data-single-expansion",
   "data-title", "data-fa-i2svg", "data-icon", "data-prefix", "data-cy",
   "data-grammarly-shadow-root"]

/-- Tag names whose `style` attribute is preserved (line 801). -/
def structuralTags : List String := ["body", "html", "head"]

/-- Tags treated as meaningful content by the emptiness filter (line 817). -/
def meaningfulTags : List String := ["img", "a", "h1", "h2", "h3", "h4", "h5", "h6"]

/-! ## `contains_navigation` (lines 687-709) -/

/-- Children of a node (empty for text nodes). -/
def childrenOf : Node → List Node
  | .text _ => []
  | .elem _ _ gc => gc

/-- `element.find('nav')` is truthy: the element has a `<nav>` descendant. -/
def hasNavDescendant (e : Node) : Bool :=
  (findFirstL (isNamed "nav") (childrenOf e)).isSome

/-- The space-joined class string of a node: BeautifulSoup tokenizes the
`class` attribute into a list; `' '.join(classes)` recovers the original
attribute value up to whitespace normalization, which the substring
patterns below cannot distinguish.  Absent class gives `""`. -/
def classString (e : Node) : String :=
  (getAttr "class" e).getD ""

/-- Case-insensitive `re.search(pat, s)` for a plain-alternative pattern:
some alternative occurs as a substring of the lowercased string. -/
def searchCaseless (alts : List String) (s : String) : Bool :=
  alts.any (fun pat => strContains (pyToLower s) pat)

/-- Body of the `try:` block of `contains_navigation` (lines 689-706):
nav descendant, or a descendant (`find_all` searches descendants only)
whose class string matches `navigation|menu|logo` case-insensitively, or
a descendant `<img>` with nonempty `alt` matching `logo|home`. -/
def navigationCheckBody (e : Node) : Except String Bool :=
  Except.ok
    (hasNavDescendant e
      || (findFirstL
            (fun n => (getAttr "class" n).isSome
              && searchCaseless ["navigation", "menu", "logo"] (classString n))
            (childrenOf e)).isSome
      || (findFirstL
            (fun n => isNamed "img" n
              && ((getAttr "alt" n).getD "" != "")
              && searchCaseless ["logo", "home"] ((getAttr "alt" n).getD ""))
            (childrenOf e)).isSome)

/-- The `try/except` wrapper of `contains_navigation`: evaluate the body;
if it raises, swallow the exception and answer `True` (fail open,
lines 707-709). -/
def failOpen (body : Node → Except String Bool) (e : Node) : Bool :=
  match body e with
  | .ok b => b
  | .error _ => true

/-- `contains_navigation` (lines 687-709). -/
def contains_navigation (e : Node) : Bool :=
  failOpen navigationCheckBody e

/-! ## Script classifier (lines 729-752) -/

/-- The removal decision of the script loop for one `<script>` element:
tracking `src`/`id`/`BOOMR` match, or JSON-LD `type`, or inline tracking
keyword in the text (the `elif` chain removes on any of the three). -/
def scriptRemovableB (n : Node) : Bool :=
  match n with
  | .text _ => false
  | .elem _ a gc =>
      let src := (lookupA "src" a).getD ""
      let scriptId := (lookupA "id" a).getD ""
      (trackerSrcList.any (fun t => strContains (pyToLower src) t)
          || strContains scriptId "utag"
          || strContains (getTextL gc) "BOOMR")
        || lookupA "type" a == some "application/ld+json"
        || inlineTrackerList.any (fun k => strContains (getTextL gc) k)

/-- A `<script>` element the classifier removes. -/
def badScript (n : Node) : Bool :=
  isNamed "script" n && scriptRemovableB n

/-! ## Attribute pruning (lines 798-813) -/

/-- `del tag[k]`: drop the attribute named `k`. -/
def delAttr (k : String) (a : List (String × String)) : List (String × String) :=
  a.filter (fun p => !(p.1 == k))

/-- The per-element attribute pruning of lines 799-813: delete `style`
unless the tag is `body`/`html`/`head`, then delete every attribute of
the `attrs_to_remove` denylist. -/
def stripAttrsFn (nm : String) (a : List (String × String)) : List (String × String) :=
  attrs_to_remove.foldl (fun acc k => delAttr k acc)
    (if structuralTags.contains nm then a else delAttr "style" a)

mutual
/-- The attribute-pruning pass over the whole tree
(`for tag in soup.find_all(True)`, lines 799-813). -/
def attrStripPassN : Node → Node
  | .text s => .text s
  | .elem nm a gc => .elem nm (stripAttrsFn nm a) (attrStripPassL gc)
def attrStripPassL : List Node → List Node
  | [] => []
  | c :: cs => attrStripPassN c :: attrStripPassL cs
end

/-! ## Pass predicates of `clean_html` -/

/-- Class attribute tokens of a node (BeautifulSoup splits `class` on
whitespace into a token list). -/
def classTokens (n : Node) : List (List Char) :=
  wordsGo [] ((getAttr "class" n).getD "").toList

/-- `find_all(class_=tok)` membership: `tok` is one of the class tokens. -/
def hasClassToken (tok : String) (n : Node) : Bool :=
  (getAttr "class" n).isSome && (classTokens n).any (fun w => w == tok.toList)

/-- A `<header>` the navigation-aware filter removes (lines 724-726). -/
def headerRemovable (n : Node) : Bool :=
  isNamed "header" n && !(contains_navigation n)

/-- An extension element matched by tag name (line 755). -/
def extensionTagBad (n : Node) : Bool :=
  match n with
  | .text _ => false
  | .elem nm _ _ => extensionTagNames.contains nm

/-- An element whose `class` attribute matches the (case-sensitive)
extension-signature regex of line 759.  The patterns contain no
whitespace, so matching the space-joined class string coincides with
BeautifulSoup's per-token regex search. -/
def extensionClassBad (n : Node) : Bool :=
  match getAttr "class" n with
  | none => false
  | some v => extensionClassPatterns.any (fun pat => strContains v pat)

/-- `rel` attribute tokens (`rel` is multi-valued in BeautifulSoup). -/
def relTokens (n : Node) : List (List Char) :=
  wordsGo [] ((getAttr "rel" n).getD "").toList

/-- `<link rel=...>` matcher for a set of rel values (lines 763, 772). -/
def linkRelBad (rels : List String) (n : Node) : Bool :=
  isNamed "link" n && rels.any (fun r => (relTokens n).any (fun w => w == r.toList))

/-- A `<meta>` removed by lines 767-769: kept only when it has a truthy
`charset` attribute or its `name` is `viewport`/`charset`. -/
def metaBad (n : Node) : Bool :=
  isNamed "meta" n
    && !((match getAttr "charset" n with
          | some v => v != ""
          | none => false)
        || (match getAttr "name" n with
            | some v => v == "viewport" || v == "charset"
            | none => false))

/-- An element with exact id `i` (`soup.find(id=i)`). -/
def hasId (i : String) (n : Node) : Bool :=
  getAttr "id" n == some i

/-- `aria-hidden="true"` exact match (line 788). -/
def ariaHiddenBad (n : Node) : Bool :=
  getAttr "aria-hidden" n == some "true"

/-- `re.search(r'display\s*:\s*none', s)` at the head of `s`. -/
def displayNoneAt (cs : List Char) : Bool :=
  "display".toList.isPrefixOf cs
    && (let r := (cs.drop 7).dropWhile (fun c => isPySpace c)
        match r with
        | ':' :: r2 => "none".toList.isPrefixOf (r2.dropWhile (fun c => isPySpace c))
        | _ => false)

/-- `re.search(r'display\s*:\s*none', s)` anywhere in `s`. -/
def hasDisplayNone : List Char → Bool
  | [] => displayNoneAt []
  | c :: t => displayNoneAt (c :: t) || hasDisplayNone t

/-- An element with a `style` attribute whose lowercased value matches
`display\s*:\s*none` (lines 792-796). -/
def displayNoneBad (n : Node) : Bool :=
  match getAttr "style" n with
  | none => false
  | some v => hasDisplayNone (pyToLower v).toList

/-- All descendant text of the forest is whitespace:
`get_text(strip=True)` is empty. -/
def allTextWsL (l : List Node) : Bool :=
  allB (fun n => match n with
        | .text s => s.toList.all (fun c => isPySpace c)
        | .elem _ _ _ => true) l

/-- An empty `<div>`/`<span>`: no stripped text and no meaningful
descendant tag (lines 816-818). -/
def emptyContainerBad (n : Node) : Bool :=
  match n with
  | .text _ => false
  | .elem nm _ gc =>
      (nm == "div" || nm == "span")
        && allTextWsL gc
        && !(findFirstL (fun m => meaningfulTags.any (fun t => isNamed t m)) gc).isSome

/-! ## The filter pipeline (lines 711-818), passes in source order -/

/-- Passes 4-10 between the script classifier and the visibility
filters: extension tags, extension classes, preload/prefetch links,
meta pruning, canonical/alternate links, onetrust ids, cookie/banner
classes. -/
def middlePassesL (l : List Node) : List Node :=
  removeAllL (hasClassToken "banner")
    (removeAllL (hasClassToken "cookie")
      (removeFirstL (hasId "onetrust-pc-sdk")
        (removeFirstL (hasId "onetrust-banner-sdk")
          (removeFirstL (hasId "onetrust-consent-sdk")
            (removeAllL (linkRelBad ["canonical", "alternate"])
              (removeAllL metaBad
                (removeAllL (linkRelBad ["preload", "prefetch"])
                  (removeAllL extensionClassBad
                    (removeAllL extensionTagBad l)))))))))

/-- The four sequential `unwanted_tags` removals (lines 719-721). -/
def unwantedTagPassesL (l : List Node) : List Node :=
  removeAllL (isNamed "noscript")
    (removeAllL (isNamed "iframe")
      (removeAllL (isNamed "footer")
        (removeAllL (isNamed "style") l)))

/-- The DOM-filtering portion of the `clean_html` route (lines 684-818):
unwanted tags, navigation-aware header removal, script classification,
extension/link/meta/cookie-banner pruning, visibility filters,
attribute stripping, and single-pass emptiness collapse, in source
order.  (The surrounding HTTP plumbing and the LLM call are external.) -/
def clean_html_filters (l : List Node) : List Node :=
  removeAllL emptyContainerBad
    (attrStripPassL
      (removeAllL displayNoneBad
        (removeAllL ariaHiddenBad
          (middlePassesL
            (removeAllL badScript
              (removeAllL headerRemovable
                (unwantedTagPassesL l)))))))

/-! ## Main-content extraction (lines 538-554) and region splicing
(lines 614-648) -/

/-- Candidate predicate: element named `main`. -/
def isMainTag (n : Node) : Bool := isNamed "main" n

/-- Candidate predicate: element with `id="main-content"`. -/
def isMainContentId (n : Node) : Bool := hasId "main-content" n

/-- Candidate predicate: element with `role="main"`. -/
def isMainRole (n : Node) : Bool := getAttr "role" n == some "main"

/-- The shared three-stage candidate search used by both the extractor
and the splicer: `soup.find("main")`, else `soup.find(id="main-content")`,
else `soup.find(attrs=role-main)`. -/
def findMainCandidate3 (soup : List Node) : Option Node :=
  match findFirstL isMainTag soup with
  | some m => some m
  | none =>
      match findFirstL isMainContentId soup with
      | some m => some m
      | none => findFirstL isMainRole soup

/-- Result of the extractor's candidate search: a node of the document,
or the whole document (`soup` itself, when even `soup.body` is absent). -/
inductive ExtractTarget where
  | node (n : Node)
  | wholeDocument

/-- The candidate-selection portion of `extract_main_html_and_url`
(lines 541-547): the three-stage search, then `soup.body or soup`. -/
def extract_main_candidate (soup : List Node) : ExtractTarget :=
  match findMainCandidate3 soup with
  | some m => .node m
  | none =>
      match findFirstL (isNamed "body") soup with
      | some b => .node b
      | none => .wholeDocument

/-- Failure conditions of `replace_main_and_inject_css`:
`notFound` is the `RuntimeError` of line 623 (no main-content region),
`malformedMain` the `RuntimeError` of line 628 (replacement has no
`<main>`), and `noHtmlElement` the `AttributeError` Python raises at
line 635 when `soup.html` is `None` while creating a missing head. -/
inductive SpliceError where
  | notFound
  | malformedMain
  | noHtmlElement
deriving DecidableEq, Repr

/-- The fixed id of the injected style element (lines 639-643). -/
def styleId : String := "site-simplify-a11y"

/-- `ACCESSIBLE_CSS` (lines 225-527): the fixed CSS payload injected
into the output head.  The spec treats this payload as opaque
configuration data, not logic; it is modelled as an abstract nonempty
constant whose content no claim inspects. -/
def ACCESSIBLE_CSS : String := ".a11y-page accessible stylesheet payload"

/-- A style element carrying the injected id (`find("style", id=...)`,
line 639). -/
def isInjectedStyle (n : Node) : Bool :=
  isNamed "style" n && getAttr "id" n == some styleId

/-- The fresh `<style id="site-simplify-a11y">` element built at
lines 643-644. -/
def styleTag : Node :=
  .elem "style" [("id", styleId)] [.text ACCESSIBLE_CSS]

/-- Lines 639-645 applied to an existing head: remove the first style
element with the injected id among the head's descendants, then append
the fresh style element. -/
def injectIntoHead : Node → Node
  | .text s => .text s
  | .elem nm a gc => .elem nm a (removeFirstL isInjectedStyle gc ++ [styleTag])

/-- Lines 634-635 when the document has no head: create a head holding
the fresh style element and insert it as first child of `soup.html`. -/
def prependNewHead : Node → Node
  | .text s => .text s
  | .elem nm a gc => .elem nm a (Node.elem "head" [] [styleTag] :: gc)

/-- `replace_main_and_inject_css(original_html, new_main_outer_html)`
(lines 614-648): locate the main-content candidate (`main` tag, else
`id="main-content"`, else `role="main"`; `RuntimeError` when all three
fail), find the `<main>` of the replacement (`RuntimeError` when
absent), replace the candidate with it, then ensure a `<head>` exists
and refresh the injected style element inside it. -/
def replace_main_and_inject_css (soup newMainSoup : List Node) :
    Except SpliceError (List Node) :=
  let sel : Option (Node → Bool) :=
    if (findFirstL isMainTag soup).isSome then some isMainTag
    else if (findFirstL isMainContentId soup).isSome then some isMainContentId
    else if (findFirstL isMainRole soup).isSome then some isMainRole
    else none
  match sel with
  | none => .error .notFound
  | some p =>
      match findFirstL isMainTag newMainSoup with
      | none => .error .malformedMain
      | some modelMain =>
          let t1 := replaceFirstL p modelMain soup
          if (findFirstL (isNamed "head") t1).isSome then
            .ok (modifyFirstL (isNamed "head") injectIntoHead t1)
          else if (findFirstL (isNamed "html") t1).isSome then
            .ok (modifyFirstL (isNamed "html") prependNewHead t1)
          else .error .noHtmlElement

/-! ## `simplify_html_for_prompt` (lines 556-573) -/

/-- The attribute replacement of lines 566-570: keep only `href` on
anchors that have one; every other element loses all attributes. -/
def promptKeepAttrs (nm : String) (a : List (String × String)) :
    List (String × String) :=
  if nm == "a" then
    match lookupA "href" a with
    | some v => [("href", v)]
    | none => []
  else []

mutual
/-- The attribute-stripping traversal of `simplify_html_for_prompt`
(`for tag in soup.find_all(True)`). -/
def promptStripN : Node → Node
  | .text s => .text s
  | .elem nm a gc => .elem nm (promptKeepAttrs nm a) (promptStripL gc)
def promptStripL : List Node → List Node
  | [] => []
  | c :: cs => promptStripN c :: promptStripL cs
end

/-- Serialize one attribute as ` k="v"`. -/
def serializeAttr (p : String × String) : String :=
  " " ++ p.1 ++ "=\"" ++ p.2 ++ "\""

mutual
/-- `str(soup)`: plain tag/text serialization. -/
def serializeN : Node → String
  | .text s => s
  | .elem nm a gc =>
      "<" ++ nm ++ String.join (a.map serializeAttr) ++ ">"
        ++ serializeL gc ++ "</" ++ nm ++ ">"
def serializeL : List Node → String
  | [] => ""
  | c :: cs => serializeN c ++ serializeL cs
end

/-- `simplify_html_for_prompt` (lines 556-573) on a parsed forest:
strip attributes (keeping anchor `href`s), serialize, and compact
whitespace with `" ".join(str(soup).split())`. -/
def simplify_html_for_prompt (soup : List Node) : String :=
  pyCollapseWs (serializeL (promptStripL soup))

/-- No two adjacent whitespace characters (every whitespace run already
has length one). -/
def noAdjacentWs : List Char → Bool
  | a :: b :: t => !(isPySpace a && isPySpace b) && noAdjacentWs (b :: t)
  | _ => true

/-! ## Auxiliary predicates used by the statements -/

/-- A node predicate that ignores children (it only inspects the tag
name and the attributes).  All attribute/name-based removal rules of the
pipeline are of this shape. -/
def ChildIndep (q : Node → Bool) : Prop :=
  ∀ nm a gc gc₂, q (.elem nm a gc) = q (.elem nm a gc₂)

/-- Key-level description of the attribute-pruning pass: the keys it
keeps on a tag named `nm`. -/
def keepKeyB (nm k : String) : Bool :=
  !((!(decide (nm ∈ structuralTags)) && k == "style")
    || decide (k ∈ attrs_to_remove))

/-- The attribute-pruning pass leaves this node's attributes unchanged
(the fixed-point condition of the attribute filter). -/
def stripFixedOk : Node → Bool
  | .text _ => true
  | .elem nm a _ => stripAttrsFn nm a == a

/-- Parser well-formedness of `<script>` elements: their children are
raw text, as `html.parser` produces (script content is CDATA, never
parsed into child elements). -/
def scriptsTextOnlyOk : Node → Bool
  | .text _ => true
  | .elem nm _ gc => !(nm == "script") || gc.all isTextNode

/-- Attribute shape after `simplify_html_for_prompt`: no attributes, or
a single `href` on an anchor. -/
def promptAttrsOk : Node → Bool
  | .text _ => true
  | .elem nm a _ =>
      match a with
      | [] => true
      | [(k, _)] => nm == "a" && k == "href"
      | _ => false

/-- Post-pruning attribute shape: a non-structural element carries no
`style` attribute and no denylisted vendor attribute. -/
def attrsPrunedOk : Node → Bool
  | .text _ => true
  | .elem nm a _ =>
      decide (nm ∈ structuralTags)
        || ((lookupA "style" a == none)
            && attrs_to_remove.all (fun k => lookupA k a == none))

/-- A `<header>` containing a `<nav>` descendant. -/
def headerWithNav (n : Node) : Bool :=
  isNamed "header" n && hasNavDescendant n

/-- Did the splice fail with the NotFound condition? -/
def isNotFound : Except SpliceError (List Node) → Bool
  | .error .notFound => true
  | _ => false

/-- Count matching nodes in a successful splice result (0 on error). -/
def countInResult (q : Node → Bool) : Except SpliceError (List Node) → Nat
  | .ok l => countB q l
  | .error _ => 0

/-! ## Induction principle and generic traversal lemmas -/

/-- Structural induction over forests of nodes. -/
theorem nodeListInd (Q : List Node → Prop) (h0 : Q [])
    (ht : ∀ s cs, Q cs → Q (Node.text s :: cs))
    (he : ∀ nm a gc cs, Q gc → Q cs → Q (Node.elem nm a gc :: cs)) :
    ∀ l, Q l
  | [] => h0
  | .text s :: cs => ht s cs (nodeListInd Q h0 ht he cs)
  | .elem nm a gc :: cs =>
      he nm a gc cs (nodeListInd Q h0 ht he gc) (nodeListInd Q h0 ht he cs)
termination_by l => sizeOf l

theorem findFirstL_eq_none_of_allB (p : Node → Bool) :
    ∀ l, allB (fun n => !(p n)) l = true → findFirstL p l = none := by
  refine nodeListInd
    (fun l => allB (fun n => !(p n)) l = true → findFirstL p l = none) ?_ ?_ ?_
  · intro _; simp [findFirstL, findFirstN]
  · intro s cs ih h
    simp only [allB, allN, Bool.and_eq_true, Bool.not_eq_true'] at h
    obtain ⟨h1, h2⟩ := h
    simp [findFirstL, findFirstN, h1, ih h2]
  · intro nm a gc cs ihg ihc h
    simp only [allB, allN, Bool.and_eq_true, Bool.not_eq_true'] at h
    obtain ⟨⟨h1, h2⟩, h3⟩ := h
    simp [findFirstL, findFirstN, h1, ihg h2, ihc h3]

theorem allB_of_findFirstL_eq_none (p : Node → Bool) :
    ∀ l, findFirstL p l = none → allB (fun n => !(p n)) l = true := by
  refine nodeListInd
    (fun l => findFirstL p l = none → allB (fun n => !(p n)) l = true) ?_ ?_ ?_
  · intro _; simp [allB, allN]
  · intro s cs ih h
    by_cases hp : p (.text s) = true
    · simp [findFirstL, findFirstN, hp] at h
    · simp only [Bool.not_eq_true] at hp
      simp only [findFirstL, findFirstN, hp, if_false] at h
      simp [allB, allN, hp, ih h]
  · intro nm a gc cs ihg ihc h
    by_cases hp : p (.elem nm a gc) = true
    · simp [findFirstL, findFirstN, hp] at h
    · simp only [Bool.not_eq_true] at hp
      simp only [findFirstL, findFirstN, hp, if_false] at h
      cases hg : findFirstL p gc with
      | some x => simp [hg] at h
      | none =>
          simp only [hg] at h
          simp [allB, allN, hp, ihg hg, ihc h]

theorem countB_eq_zero_of_allB (q : Node → Bool) :
    ∀ l, allB (fun n => !(q n)) l = true → countB q l = 0 := by
  refine nodeListInd
    (fun l => allB (fun n => !(q n)) l = true → countB q l = 0) ?_ ?_ ?_
  · intro _; simp [countB, countN]
  · intro s cs ih h
    simp only [allB, allN, Bool.and_eq_true, Bool.not_eq_true'] at h
    obtain ⟨h1, h2⟩ := h
    simp [countB, countN, h1, ih h2]
  · intro nm a gc cs ihg ihc h
    simp only [allB, allN, Bool.and_eq_true, Bool.not_eq_true'] at h
    obtain ⟨⟨h1, h2⟩, h3⟩ := h
    simp [countB, countN, h1, ihg h2, ihc h3]

theorem countB_pos_of_findFirstL_isSome (q : Node → Bool) :
    ∀ l, (findFirstL q l).isSome = true → 1 ≤ countB q l := by
  refine nodeListInd
    (fun l => (findFirstL q l).isSome = true → 1 ≤ countB q l) ?_ ?_ ?_
  · intro h; simp [findFirstL, findFirstN] at h
  · intro s cs ih h
    by_cases hq : q (.text s) = true
    · simp [countB, countN, hq]
    · simp only [Bool.not_eq_true] at hq
      simp only [findFirstL, findFirstN, hq, if_false] at h
      have := ih h
      simp only [countB, countN, hq, if_false]
      omega
  · intro nm a gc cs ihg ihc h
    by_cases hq : q (.elem nm a gc) = true
    · simp only [countB, countN, hq, if_true]
      omega
    · simp only [Bool.not_eq_true] at hq
      simp only [findFirstL, findFirstN, hq, if_false] at h
      simp only [countB, countN, hq, if_false]
      cases hg : findFirstL q gc with
      | some x =>
          have := ihg (by simp [hg])
          omega
      | none =>
          simp only [hg] at h
          have := ihc h
          omega

/-- `removeAllL` is the identity when no node matches. -/
theorem removeAllL_id (p : Node → Bool) :
    ∀ l, allB (fun n => !(p n)) l = true → removeAllL p l = l := by
  refine nodeListInd
    (fun l => allB (fun n => !(p n)) l = true → removeAllL p l = l) ?_ ?_ ?_
  · intro _; simp [removeAllL, removeAllN]
  · intro s cs ih h
    simp only [allB, allN, Bool.and_eq_true, Bool.not_eq_true'] at h
    obtain ⟨h1, h2⟩ := h
    simp [removeAllL, removeAllN, h1, ih h2]
  · intro nm a gc cs ihg ihc h
    simp only [allB, allN, Bool.and_eq_true, Bool.not_eq_true'] at h
    obtain ⟨⟨h1, h2⟩, h3⟩ := h
    simp [removeAllL, removeAllN, h1, ihg h2, ihc h3]

/-- A removal pass eliminates every node of a children-independent
predicate `q` implied by the removal predicate `p`. -/
theorem removeAllL_establish (p q : Node → Bool) (hci : ChildIndep q)
    (himp : ∀ n, q n = true → p n = true) :
    ∀ l, allB (fun n => !(q n)) (removeAllL p l) = true := by
  refine nodeListInd
    (fun l => allB (fun n => !(q n)) (removeAllL p l) = true) ?_ ?_ ?_
  · simp [removeAllL, removeAllN, allB, allN]
  · intro s cs ih
    by_cases hp : p (.text s) = true
    · simpa [removeAllL, removeAllN, hp] using ih
    · simp only [Bool.not_eq_true] at hp
      have hq : q (.text s) = false := by
        cases hqv : q (.text s) with
        | false => rfl
        | true => rw [himp _ hqv] at hp; exact absurd hp (by simp)
      simp [removeAllL, removeAllN, hp, allB, allN, hq, ih]
  · intro nm a gc cs ihg ihc
    by_cases hp : p (.elem nm a gc) = true
    · simpa [removeAllL, removeAllN, hp] using ihc
    · simp only [Bool.not_eq_true] at hp
      have hq : q (.elem nm a (removeAllL p gc)) = false := by
        rw [hci nm a (removeAllL p gc) gc]
        cases hqv : q (.elem nm a gc) with
        | false => rfl
        | true => rw [himp _ hqv] at hp; exact absurd hp (by simp)
      simp [removeAllL, removeAllN, hp, allB, allN, hq, ihg, ihc]

/-- Removal passes preserve the absence of nodes matching a
children-independent predicate. -/
theorem removeAllL_preserve (p q : Node → Bool) (hci : ChildIndep q) :
    ∀ l, allB (fun n => !(q n)) l = true →
      allB (fun n => !(q n)) (removeAllL p l) = true := by
  refine nodeListInd
    (fun l => allB (fun n => !(q n)) l = true →
      allB (fun n => !(q n)) (removeAllL p l) = true) ?_ ?_ ?_
  · intro _; simp [removeAllL, removeAllN, allB, allN]
  · intro s cs ih h
    simp only [allB, allN, Bool.and_eq_true, Bool.not_eq_true'] at h
    obtain ⟨h1, h2⟩ := h
    by_cases hp : p (.text s) = true
    · simpa [removeAllL, removeAllN, hp] using ih (by simpa [allB, allN] using h2)
    · simp only [Bool.not_eq_true] at hp
      simp [removeAllL, removeAllN, hp, allB, allN, h1, ih (by simpa [allB] using h2)]
  · intro nm a gc cs ihg ihc h
    simp only [allB, allN, Bool.and_eq_true, Bool.not_eq_true'] at h
    obtain ⟨⟨h1, h2⟩, h3⟩ := h
    by_cases hp : p (.elem nm a gc) = true
    · simpa [removeAllL, removeAllN, hp] using ihc (by simpa [allB, allN] using h3)
    · simp only [Bool.not_eq_true] at hp
      have hq : q (.elem nm a (removeAllL p gc)) = false := by
        rw [hci nm a (removeAllL p gc) gc]; exact h1
      simp [removeAllL, removeAllN, hp, allB, allN, hq, ihg (by simpa [allB] using h2),
        ihc (by simpa [allB, allN] using h3)]

/-- Single-removal passes preserve the absence of nodes matching a
children-independent predicate. -/
theorem removeFirstL_preserve (p q : Node → Bool) (hci : ChildIndep q) :
    ∀ l, allB (fun n => !(q n)) l = true →
      allB (fun n => !(q n)) (removeFirstL p l) = true := by
  refine nodeListInd
    (fun l => allB (fun n => !(q n)) l = true →
      allB (fun n => !(q n)) (removeFirstL p l) = true) ?_ ?_ ?_
  · intro _; simp [findFirstN, removeFirstL, removeFirstN, allB, allN]
  · intro s cs ih h
    simp only [allB, allN, Bool.and_eq_true, Bool.not_eq_true'] at h
    obtain ⟨h1, h2⟩ := h
    by_cases hp : p (.text s) = true
    · simpa [findFirstN, removeFirstL, removeFirstN, hp, allB, allN] using h2
    · simp only [Bool.not_eq_true] at hp
      simp [findFirstN, removeFirstL, removeFirstN, hp, allB, allN, h1, ih (by simpa [allB] using h2)]
  · intro nm a gc cs ihg ihc h
    simp only [allB, allN, Bool.and_eq_true, Bool.not_eq_true'] at h
    obtain ⟨⟨h1, h2⟩, h3⟩ := h
    by_cases hp : p (.elem nm a gc) = true
    · simpa [findFirstN, removeFirstL, removeFirstN, hp, allB, allN] using h3
    · simp only [Bool.not_eq_true] at hp
      by_cases hg : (findFirstL p gc).isSome = true
      · have hq : q (.elem nm a (removeFirstL p gc)) = false := by
          rw [hci nm a (removeFirstL p gc) gc]; exact h1
        simp [findFirstN, removeFirstL, removeFirstN, hp, hg, allB, allN, hq, ihg (by simpa [allB] using h2), h3]
      · simp only [Bool.not_eq_true] at hg
        simp [findFirstN, removeFirstL, removeFirstN, hp, hg, allB, allN, h1, h2,
          ihc (by simpa [allB] using h3)]

/-! ## Attribute-list lemmas -/

theorem beqStr_eq_decide (a b : String) : (a == b) = decide (a = b) := by
  by_cases h : a = b
  · subst h; simp
  · simp [h, beq_eq_false_iff_ne]

theorem anyBeq_eq_decide_mem (ks : List String) (k : String) :
    (ks.any fun k₂ => k == k₂) = decide (k ∈ ks) := by
  induction ks with
  | nil => simp
  | cons k₂ ks ih =>
      simp only [List.any_cons]
      rw [ih]
      by_cases h : k = k₂
      · subst h; simp
      · by_cases hmem : k ∈ ks <;> simp [h, hmem]

theorem foldl_delAttr_eq_filter (ks : List String) :
    ∀ a, ks.foldl (fun acc k => delAttr k acc) a
      = a.filter (fun pr => !(decide (pr.1 ∈ ks))) := by
  induction ks with
  | nil =>
      intro a
      simp [List.foldl]
  | cons k ks ih =>
      intro a
      have step : (k :: ks).foldl (fun acc k => delAttr k acc) a
          = ks.foldl (fun acc k => delAttr k acc) (delAttr k a) := rfl
      rw [step, ih, delAttr, List.filter_filter]
      apply List.filter_congr
      intro pr _
      by_cases h : pr.1 = k
      · subst h; simp
      · by_cases hmem : pr.1 ∈ ks <;> simp [h, hmem]

theorem stripAttrsFn_eq_filter (nm : String) (a : List (String × String)) :
    stripAttrsFn nm a = a.filter (fun pr => keepKeyB nm pr.1) := by
  by_cases hs : structuralTags.contains nm = true
  · have hm : nm ∈ structuralTags := by simpa using hs
    rw [stripAttrsFn, if_pos hs, foldl_delAttr_eq_filter]
    apply List.filter_congr
    intro pr _
    simp [keepKeyB, hm]
  · have hm : ¬(nm ∈ structuralTags) := by simpa using hs
    rw [stripAttrsFn, if_neg (by simpa using hs), delAttr,
      foldl_delAttr_eq_filter, List.filter_filter]
    apply List.filter_congr
    intro pr _
    by_cases h : pr.1 = "style"
    · simp [keepKeyB, hm, h]
    · by_cases hmem : pr.1 ∈ attrs_to_remove <;> simp [keepKeyB, hm, h, hmem]

theorem lookupA_filter_key (f : String → Bool) (k : String) :
    ∀ a, lookupA k (a.filter (fun pr => f pr.1))
      = if f k then lookupA k a else none := by
  intro a
  induction a with
  | nil => cases hf : f k <;> simp [lookupA]
  | cons p rest ih =>
      obtain ⟨k₂, v⟩ := p
      by_cases hf2 : f k₂ = true
      · by_cases hk : (k₂ == k) = true
        · have hkk : k₂ = k := by simpa using hk
          subst hkk
          simp [hf2, lookupA, hk]
        · simp only [Bool.not_eq_true] at hk
          simp [hf2, lookupA, hk, ih]
      · simp only [Bool.not_eq_true] at hf2
        by_cases hk : (k₂ == k) = true
        · have hkk : k₂ = k := by simpa using hk
          subst hkk
          simp [hf2, lookupA, ih]
        · simp only [Bool.not_eq_true] at hk
          simp [hf2, lookupA, hk, ih]

theorem lookupA_stripAttrsFn (nm k : String) (a : List (String × String)) :
    lookupA k (stripAttrsFn nm a) = if keepKeyB nm k then lookupA k a else none := by
  rw [stripAttrsFn_eq_filter, lookupA_filter_key]

theorem stripAttrsFn_idem (nm : String) (a : List (String × String)) :
    stripAttrsFn nm (stripAttrsFn nm a) = stripAttrsFn nm a := by
  rw [stripAttrsFn_eq_filter, stripAttrsFn_eq_filter, List.filter_filter]
  apply List.filter_congr
  intro pr _
  simp

/-! ## Append and conversion lemmas -/

theorem allB_append (q : Node → Bool) :
    ∀ l₁ l₂, allB q (l₁ ++ l₂) = (allB q l₁ && allB q l₂) := by
  refine nodeListInd
    (fun l₁ => ∀ l₂, allB q (l₁ ++ l₂) = (allB q l₁ && allB q l₂)) ?_ ?_ ?_
  · intro l₂; simp [allB, allN]
  · intro s cs ih l₂
    simp [allB, allN, ih, Bool.and_assoc]
  · intro nm a gc cs ihg ihc l₂
    simp [allB, allN, ihc, Bool.and_assoc]

theorem countB_append (q : Node → Bool) :
    ∀ l₁ l₂, countB q (l₁ ++ l₂) = countB q l₁ + countB q l₂ := by
  refine nodeListInd
    (fun l₁ => ∀ l₂, countB q (l₁ ++ l₂) = countB q l₁ + countB q l₂) ?_ ?_ ?_
  · intro l₂; simp [countB, countN]
  · intro s cs ih l₂
    simp [countB, countN, ih]; omega
  · intro nm a gc cs ihg ihc l₂
    simp [countB, countN, ihc]; omega

theorem allB_of_countB_eq_zero (q : Node → Bool) :
    ∀ l, countB q l = 0 → allB (fun n => !(q n)) l = true := by
  refine nodeListInd
    (fun l => countB q l = 0 → allB (fun n => !(q n)) l = true) ?_ ?_ ?_
  · intro _; simp [allB, allN]
  · intro s cs ih h
    by_cases hq : q (.text s) = true
    · simp [countB, countN, hq] at h
    · simp only [Bool.not_eq_true] at hq
      simp [countB, countN, hq] at h
      simp [allB, allN, hq, ih h]
  · intro nm a gc cs ihg ihc h
    by_cases hq : q (.elem nm a gc) = true
    · simp [countB, countN, hq] at h
    · simp only [Bool.not_eq_true] at hq
      simp [countB, countN, hq] at h
      simp [allB, allN, hq, ihg h.1, ihc h.2]

theorem findFirstL_append_of_allB (p : Node → Bool) :
    ∀ l₁ l₂, allB (fun n => !(p n)) l₁ = true →
      findFirstL p (l₁ ++ l₂) = findFirstL p l₂ := by
  refine nodeListInd
    (fun l₁ => ∀ l₂, allB (fun n => !(p n)) l₁ = true →
      findFirstL p (l₁ ++ l₂) = findFirstL p l₂) ?_ ?_ ?_
  · intro l₂ _; simp
  · intro s cs ih l₂ h
    simp only [allB, allN, Bool.and_eq_true, Bool.not_eq_true'] at h
    obtain ⟨h1, h2⟩ := h
    simp [findFirstL, findFirstN, h1, ih l₂ h2]
  · intro nm a gc cs ihg ihc l₂ h
    simp only [allB, allN, Bool.and_eq_true, Bool.not_eq_true'] at h
    obtain ⟨⟨h1, h2⟩, h3⟩ := h
    simp [findFirstL, findFirstN, h1, findFirstL_eq_none_of_allB p gc h2, ihc l₂ h3]

theorem replaceFirstL_append_of_allB (p : Node → Bool) (r : Node) :
    ∀ l₁ l₂, allB (fun n => !(p n)) l₁ = true →
      replaceFirstL p r (l₁ ++ l₂) = l₁ ++ replaceFirstL p r l₂ := by
  refine nodeListInd
    (fun l₁ => ∀ l₂, allB (fun n => !(p n)) l₁ = true →
      replaceFirstL p r (l₁ ++ l₂) = l₁ ++ replaceFirstL p r l₂) ?_ ?_ ?_
  · intro l₂ _; simp
  · intro s cs ih l₂ h
    simp only [allB, allN, Bool.and_eq_true, Bool.not_eq_true'] at h
    obtain ⟨h1, h2⟩ := h
    simp [findFirstN, replaceFirstL, replaceFirstN, h1, ih l₂ h2]
  · intro nm a gc cs ihg ihc l₂ h
    simp only [allB, allN, Bool.and_eq_true, Bool.not_eq_true'] at h
    obtain ⟨⟨h1, h2⟩, h3⟩ := h
    simp [findFirstN, replaceFirstL, replaceFirstN, h1, findFirstL_eq_none_of_allB p gc h2, ihc l₂ h3]

theorem countB_removeFirstL_eq_zero (p : Node → Bool) (hci : ChildIndep p) :
    ∀ l, countB p l ≤ 1 → countB p (removeFirstL p l) = 0 := by
  refine nodeListInd
    (fun l => countB p l ≤ 1 → countB p (removeFirstL p l) = 0) ?_ ?_ ?_
  · intro _; simp [findFirstN, removeFirstL, removeFirstN, countB, countN]
  · intro s cs ih h
    by_cases hp : p (.text s) = true
    · simp only [countB, countN, hp, if_true] at h
      simp [findFirstN, removeFirstL, removeFirstN, hp, countB_eq_zero_of_allB p cs
        (allB_of_countB_eq_zero p cs (by omega))]
    · simp only [Bool.not_eq_true] at hp
      simp [countB, countN, hp] at h
      simp [findFirstN, removeFirstL, removeFirstN, hp, countB, countN, ih h]
  · intro nm a gc cs ihg ihc h
    by_cases hp : p (.elem nm a gc) = true
    · simp only [countB, countN, hp, if_true] at h
      simp [findFirstN, removeFirstL, removeFirstN, hp, countB_eq_zero_of_allB p cs
        (allB_of_countB_eq_zero p cs (by omega))]
    · simp only [Bool.not_eq_true] at hp
      simp [countB, countN, hp] at h
      cases hfind : findFirstL p gc with
      | some x =>
          have hpos := countB_pos_of_findFirstL_isSome p gc (by simp [hfind])
          have hcs : countB p cs = 0 := by omega
          have hkeep : p (.elem nm a (removeFirstL p gc)) = false := by
            rw [hci nm a (removeFirstL p gc) gc]; exact hp
          simp [findFirstN, removeFirstL, removeFirstN, hp, hfind, countB, countN, hkeep, ihg (by omega), hcs]
      | none =>
          have hgz : countB p gc = 0 :=
            countB_eq_zero_of_allB p gc (allB_of_findFirstL_eq_none p gc hfind)
          simp [findFirstN, removeFirstL, removeFirstN, hp, hfind, countB, countN, hp, hgz, ihc (by omega)]

/-! ## Attribute-pass lemmas -/

theorem attrStripPassL_id :
    ∀ l, allB stripFixedOk l = true → attrStripPassL l = l := by
  refine nodeListInd
    (fun l => allB stripFixedOk l = true → attrStripPassL l = l) ?_ ?_ ?_
  · intro _; simp [attrStripPassL, attrStripPassN]
  · intro s cs ih h
    simp only [allB, allN, Bool.and_eq_true] at h
    simp [attrStripPassL, attrStripPassN, ih h.2]
  · intro nm a gc cs ihg ihc h
    simp only [allB, allN, Bool.and_eq_true] at h
    obtain ⟨⟨h1, h2⟩, h3⟩ := h
    have ha : stripAttrsFn nm a = a := eq_of_beq (by simpa [stripFixedOk] using h1)
    simp [attrStripPassL, attrStripPassN, ha, ihg h2, ihc h3]

theorem attrStripPassL_establish :
    ∀ l, allB stripFixedOk (attrStripPassL l) = true := by
  refine nodeListInd
    (fun l => allB stripFixedOk (attrStripPassL l) = true) ?_ ?_ ?_
  · simp [attrStripPassL, attrStripPassN, allB, allN]
  · intro s cs ih
    simp [attrStripPassL, attrStripPassN, allB, allN, stripFixedOk, ih]
  · intro nm a gc cs ihg ihc
    simp [attrStripPassL, attrStripPassN, allB, allN, stripFixedOk, stripAttrsFn_idem, ihg, ihc]

/-- The attribute pass preserves the absence of nodes matching `q`,
provided a `q`-match of the stripped element would reflect to the
original element. -/
theorem attrStripPassL_preserve (q : Node → Bool)
    (hstrip : ∀ nm a gc gc₂,
      q (.elem nm (stripAttrsFn nm a) gc) = true → q (.elem nm a gc₂) = true) :
    ∀ l, allB (fun n => !(q n)) l = true →
      allB (fun n => !(q n)) (attrStripPassL l) = true := by
  refine nodeListInd
    (fun l => allB (fun n => !(q n)) l = true →
      allB (fun n => !(q n)) (attrStripPassL l) = true) ?_ ?_ ?_
  · intro _; simp [attrStripPassL, attrStripPassN, allB, allN]
  · intro s cs ih h
    simp only [allB, allN, Bool.and_eq_true, Bool.not_eq_true'] at h
    simp [attrStripPassL, attrStripPassN, allB, allN, h.1, ih h.2]
  · intro nm a gc cs ihg ihc h
    simp only [allB, allN, Bool.and_eq_true, Bool.not_eq_true'] at h
    obtain ⟨⟨h1, h2⟩, h3⟩ := h
    have hq : q (.elem nm (stripAttrsFn nm a) (attrStripPassL gc)) = false := by
      cases hv : q (.elem nm (stripAttrsFn nm a) (attrStripPassL gc)) with
      | false => rfl
      | true => rw [hstrip nm a (attrStripPassL gc) gc hv] at h1; exact absurd h1 (by simp)
    simp [attrStripPassL, attrStripPassN, allB, allN, hq, ihg h2, ihc h3]

theorem getTextL_attrStripPassL :
    ∀ l, getTextL (attrStripPassL l) = getTextL l := by
  refine nodeListInd
    (fun l => getTextL (attrStripPassL l) = getTextL l) ?_ ?_ ?_
  · simp [attrStripPassL, attrStripPassN]
  · intro s cs ih
    simp [attrStripPassL, attrStripPassN, getTextL, getTextN, ih]
  · intro nm a gc cs ihg ihc
    simp [attrStripPassL, attrStripPassN, getTextL, getTextN, ihg, ihc]

/-! ## Text-only children lemmas (parser shape of `<script>` content) -/

theorem removeAllL_of_all_text (p : Node → Bool)
    (htext : ∀ s, p (.text s) = false) :
    ∀ cs, cs.all isTextNode = true → removeAllL p cs = cs := by
  intro cs
  induction cs with
  | nil => intro _; simp [removeAllL, removeAllN]
  | cons c rest ih =>
      intro h
      simp only [List.all_cons, Bool.and_eq_true] at h
      cases c with
      | text s => simp [removeAllL, removeAllN, htext s, ih h.2]
      | elem nm a gc => simp [isTextNode] at h

theorem removeFirstL_of_all_text (p : Node → Bool)
    (htext : ∀ s, p (.text s) = false) :
    ∀ cs, cs.all isTextNode = true → removeFirstL p cs = cs := by
  intro cs
  induction cs with
  | nil => intro _; simp [findFirstN, removeFirstL, removeFirstN]
  | cons c rest ih =>
      intro h
      simp only [List.all_cons, Bool.and_eq_true] at h
      cases c with
      | text s => simp [findFirstN, removeFirstL, removeFirstN, htext s, ih h.2]
      | elem nm a gc => simp [isTextNode] at h

theorem attrStripPassL_of_all_text :
    ∀ cs, cs.all isTextNode = true → attrStripPassL cs = cs := by
  intro cs
  induction cs with
  | nil => intro _; simp [attrStripPassL, attrStripPassN]
  | cons c rest ih =>
      intro h
      simp only [List.all_cons, Bool.and_eq_true] at h
      cases c with
      | text s => simp [attrStripPassL, attrStripPassN, ih h.2]
      | elem nm a gc => simp [isTextNode] at h

/-! ## Script-invariant lemmas -/

theorem removeAllL_preserve_sto (p : Node → Bool)
    (htext : ∀ s, p (.text s) = false) :
    ∀ l, allB scriptsTextOnlyOk l = true →
      allB scriptsTextOnlyOk (removeAllL p l) = true := by
  refine nodeListInd
    (fun l => allB scriptsTextOnlyOk l = true →
      allB scriptsTextOnlyOk (removeAllL p l) = true) ?_ ?_ ?_
  · intro _; simp [removeAllL, removeAllN, allB, allN]
  · intro s cs ih h
    simp only [allB, allN, Bool.and_eq_true] at h
    simp [removeAllL, removeAllN, htext s, allB, allN, scriptsTextOnlyOk, ih h.2]
  · intro nm a gc cs ihg ihc h
    simp only [allB, allN, Bool.and_eq_true] at h
    obtain ⟨⟨h1, h2⟩, h3⟩ := h
    by_cases hp : p (.elem nm a gc) = true
    · simp [removeAllL, removeAllN, hp, ihc h3]
    · simp only [Bool.not_eq_true] at hp
      have hsto : scriptsTextOnlyOk (.elem nm a (removeAllL p gc)) = true := by
        by_cases hnm : (nm == "script") = true
        · have hall : gc.all isTextNode = true := by
            simpa [scriptsTextOnlyOk, hnm] using h1
          simp [scriptsTextOnlyOk, hnm, removeAllL_of_all_text p htext gc hall, hall]
        · simp only [Bool.not_eq_true] at hnm
          simp [scriptsTextOnlyOk, hnm]
      simp [removeAllL, removeAllN, hp, allB, allN, hsto, ihg h2, ihc h3]

theorem removeFirstL_preserve_sto (p : Node → Bool)
    (htext : ∀ s, p (.text s) = false) :
    ∀ l, allB scriptsTextOnlyOk l = true →
      allB scriptsTextOnlyOk (removeFirstL p l) = true := by
  refine nodeListInd
    (fun l => allB scriptsTextOnlyOk l = true →
      allB scriptsTextOnlyOk (removeFirstL p l) = true) ?_ ?_ ?_
  · intro _; simp [findFirstN, removeFirstL, removeFirstN, allB, allN]
  · intro s cs ih h
    simp only [allB, allN, Bool.and_eq_true] at h
    simp [findFirstN, removeFirstL, removeFirstN, htext s, allB, allN, scriptsTextOnlyOk, ih h.2]
  · intro nm a gc cs ihg ihc h
    simp only [allB, allN, Bool.and_eq_true] at h
    obtain ⟨⟨h1, h2⟩, h3⟩ := h
    by_cases hp : p (.elem nm a gc) = true
    · simp [findFirstN, removeFirstL, removeFirstN, hp, allB, allN, h3]
    · simp only [Bool.not_eq_true] at hp
      by_cases hfind : (findFirstL p gc).isSome = true
      · have hsto : scriptsTextOnlyOk (.elem nm a (removeFirstL p gc)) = true := by
          by_cases hnm : (nm == "script") = true
          · have hall : gc.all isTextNode = true := by
              simpa [scriptsTextOnlyOk, hnm] using h1
            simp [scriptsTextOnlyOk, hnm,
              removeFirstL_of_all_text p htext gc hall, hall]
          · simp only [Bool.not_eq_true] at hnm
            simp [scriptsTextOnlyOk, hnm]
        simp [findFirstN, removeFirstL, removeFirstN, hp, hfind, allB, allN, hsto, ihg h2, h3]
      · simp only [Bool.not_eq_true] at hfind
        simp [findFirstN, removeFirstL, removeFirstN, hp, hfind, allB, allN, h1, h2, ihc h3]

theorem attrStripPassL_preserve_sto :
    ∀ l, allB scriptsTextOnlyOk l = true →
      allB scriptsTextOnlyOk (attrStripPassL l) = true := by
  refine nodeListInd
    (fun l => allB scriptsTextOnlyOk l = true →
      allB scriptsTextOnlyOk (attrStripPassL l) = true) ?_ ?_ ?_
  · intro _; simp [attrStripPassL, attrStripPassN, allB, allN]
  · intro s cs ih h
    simp only [allB, allN, Bool.and_eq_true] at h
    simp [attrStripPassL, attrStripPassN, allB, allN, scriptsTextOnlyOk, ih h.2]
  · intro nm a gc cs ihg ihc h
    simp only [allB, allN, Bool.and_eq_true] at h
    obtain ⟨⟨h1, h2⟩, h3⟩ := h
    have hsto : scriptsTextOnlyOk (.elem nm (stripAttrsFn nm a) (attrStripPassL gc)) = true := by
      by_cases hnm : (nm == "script") = true
      · have hall : gc.all isTextNode = true := by
          simpa [scriptsTextOnlyOk, hnm] using h1
        simp [scriptsTextOnlyOk, hnm, attrStripPassL_of_all_text gc hall, hall]
      · simp only [Bool.not_eq_true] at hnm
        simp [scriptsTextOnlyOk, hnm]
    simp [attrStripPassL, attrStripPassN, allB, allN, hsto, ihg h2, ihc h3]

theorem keepKeyB_src (nm : String) : keepKeyB nm "src" = true := by
  simp [keepKeyB, attrs_to_remove]

theorem keepKeyB_id (nm : String) : keepKeyB nm "id" = true := by
  simp [keepKeyB, attrs_to_remove]

theorem keepKeyB_type (nm : String) : keepKeyB nm "type" = true := by
  simp [keepKeyB, attrs_to_remove]

/-- The script classifier's decision is unchanged by attribute pruning
(it reads only `src`, `id`, `type` and the text, all preserved). -/
theorem scriptRemovableB_after_strip (nm nm₂ nm₃ : String)
    (a : List (String × String)) (gc gc₂ : List Node)
    (htxt : getTextL gc = getTextL gc₂) :
    scriptRemovableB (.elem nm (stripAttrsFn nm₂ a) gc)
      = scriptRemovableB (.elem nm₃ a gc₂) := by
  simp only [scriptRemovableB, lookupA_stripAttrsFn, keepKeyB_src, keepKeyB_id,
    keepKeyB_type, if_true, htxt]

theorem badScript_text (s : String) : badScript (.text s) = false := rfl

/-- After the script pass, no removable script remains (given parser
shape of script children). -/
theorem scriptPass_establish_noBadScript :
    ∀ l, allB scriptsTextOnlyOk l = true →
      allB (fun n => !(badScript n)) (removeAllL badScript l) = true := by
  refine nodeListInd
    (fun l => allB scriptsTextOnlyOk l = true →
      allB (fun n => !(badScript n)) (removeAllL badScript l) = true) ?_ ?_ ?_
  · intro _; simp [removeAllL, removeAllN, allB, allN]
  · intro s cs ih h
    simp only [allB, allN, Bool.and_eq_true] at h
    simp [removeAllL, removeAllN, badScript_text, allB, allN, ih h.2]
  · intro nm a gc cs ihg ihc h
    simp only [allB, allN, Bool.and_eq_true] at h
    obtain ⟨⟨h1, h2⟩, h3⟩ := h
    by_cases hp : badScript (.elem nm a gc) = true
    · simp [removeAllL, removeAllN, hp, ihc h3]
    · simp only [Bool.not_eq_true] at hp
      have hkeep : badScript (.elem nm a (removeAllL badScript gc)) = false := by
        by_cases hnm : (nm == "script") = true
        · have hall : gc.all isTextNode = true := by
            simpa [scriptsTextOnlyOk, hnm] using h1
          rw [removeAllL_of_all_text badScript (fun s => rfl) gc hall]
          exact hp
        · simp only [Bool.not_eq_true] at hnm
          simp [badScript, isNamed, hnm]
      simp [removeAllL, removeAllN, hp, allB, allN, hkeep, ihg h2, ihc h3]

theorem removeAllL_preserve_noBadScript (p : Node → Bool)
    (htext : ∀ s, p (.text s) = false) :
    ∀ l, allB scriptsTextOnlyOk l = true →
      allB (fun n => !(badScript n)) l = true →
      allB (fun n => !(badScript n)) (removeAllL p l) = true := by
  refine nodeListInd
    (fun l => allB scriptsTextOnlyOk l = true →
      allB (fun n => !(badScript n)) l = true →
      allB (fun n => !(badScript n)) (removeAllL p l) = true) ?_ ?_ ?_
  · intro _ _; simp [removeAllL, removeAllN, allB, allN]
  · intro s cs ih hs hb
    simp only [allB, allN, Bool.and_eq_true] at hs hb
    simp [removeAllL, removeAllN, htext s, allB, allN, badScript_text, ih hs.2 hb.2]
  · intro nm a gc cs ihg ihc hs hb
    simp only [allB, allN, Bool.and_eq_true] at hs hb
    obtain ⟨⟨hs1, hs2⟩, hs3⟩ := hs
    obtain ⟨⟨hb1, hb2⟩, hb3⟩ := hb
    by_cases hp : p (.elem nm a gc) = true
    · simp [removeAllL, removeAllN, hp, ihc hs3 hb3]
    · simp only [Bool.not_eq_true] at hp
      have hkeep : badScript (.elem nm a (removeAllL p gc)) = false := by
        by_cases hnm : (nm == "script") = true
        · have hall : gc.all isTextNode = true := by
            simpa [scriptsTextOnlyOk, hnm] using hs1
          rw [removeAllL_of_all_text p htext gc hall]
          simpa using hb1
        · simp only [Bool.not_eq_true] at hnm
          simp [badScript, isNamed, hnm]
      simp [removeAllL, removeAllN, hp, allB, allN, hkeep, ihg hs2 hb2, ihc hs3 hb3]

theorem removeFirstL_preserve_noBadScript (p : Node → Bool)
    (htext : ∀ s, p (.text s) = false) :
    ∀ l, allB scriptsTextOnlyOk l = true →
      allB (fun n => !(badScript n)) l = true →
      allB (fun n => !(badScript n)) (removeFirstL p l) = true := by
  refine nodeListInd
    (fun l => allB scriptsTextOnlyOk l = true →
      allB (fun n => !(badScript n)) l = true →
      allB (fun n => !(badScript n)) (removeFirstL p l) = true) ?_ ?_ ?_
  · intro _ _; simp [findFirstN, removeFirstL, removeFirstN, allB, allN]
  · intro s cs ih hs hb
    simp only [allB, allN, Bool.and_eq_true] at hs hb
    simp [findFirstN, removeFirstL, removeFirstN, htext s, allB, allN, badScript_text, ih hs.2 hb.2]
  · intro nm a gc cs ihg ihc hs hb
    simp only [allB, allN, Bool.and_eq_true] at hs hb
    obtain ⟨⟨hs1, hs2⟩, hs3⟩ := hs
    obtain ⟨⟨hb1, hb2⟩, hb3⟩ := hb
    by_cases hp : p (.elem nm a gc) = true
    · simp [findFirstN, removeFirstL, removeFirstN, hp, allB, allN, hb3]
    · simp only [Bool.not_eq_true] at hp
      by_cases hfind : (findFirstL p gc).isSome = true
      · have hkeep : badScript (.elem nm a (removeFirstL p gc)) = false := by
          by_cases hnm : (nm == "script") = true
          · have hall : gc.all isTextNode = true := by
              simpa [scriptsTextOnlyOk, hnm] using hs1
            rw [removeFirstL_of_all_text p htext gc hall]
            simpa using hb1
          · simp only [Bool.not_eq_true] at hnm
            simp [badScript, isNamed, hnm]
        simp [findFirstN, removeFirstL, removeFirstN, hp, hfind, allB, allN, hkeep, ihg hs2 hb2, hb3]
      · simp only [Bool.not_eq_true] at hfind
        simp [findFirstN, removeFirstL, removeFirstN, hp, hfind, allB, allN, hb1, hb2, ihc hs3 hb3]

theorem attrStripPassL_preserve_noBadScript :
    ∀ l, allB scriptsTextOnlyOk l = true →
      allB (fun n => !(badScript n)) l = true →
      allB (fun n => !(badScript n)) (attrStripPassL l) = true := by
  refine nodeListInd
    (fun l => allB scriptsTextOnlyOk l = true →
      allB (fun n => !(badScript n)) l = true →
      allB (fun n => !(badScript n)) (attrStripPassL l) = true) ?_ ?_ ?_
  · intro _ _; simp [attrStripPassL, attrStripPassN, allB, allN]
  · intro s cs ih hs hb
    simp only [allB, allN, Bool.and_eq_true] at hs hb
    simp [attrStripPassL, attrStripPassN, allB, allN, badScript_text, ih hs.2 hb.2]
  · intro nm a gc cs ihg ihc hs hb
    simp only [allB, allN, Bool.and_eq_true] at hs hb
    obtain ⟨⟨hs1, hs2⟩, hs3⟩ := hs
    obtain ⟨⟨hb1, hb2⟩, hb3⟩ := hb
    have hkeep : badScript (.elem nm (stripAttrsFn nm a) (attrStripPassL gc)) = false := by
      by_cases hnm : (nm == "script") = true
      · have hall : gc.all isTextNode = true := by
          simpa [scriptsTextOnlyOk, hnm] using hs1
        have hb1f : scriptRemovableB (.elem nm a gc) = false := by
          cases hv : scriptRemovableB (.elem nm a gc) with
          | false => rfl
          | true => simp [badScript, isNamed, hnm, hv] at hb1
        rw [badScript]
        rw [scriptRemovableB_after_strip nm nm nm a (attrStripPassL gc) gc
          (getTextL_attrStripPassL gc), hb1f]
        simp
      · simp only [Bool.not_eq_true] at hnm
        simp [badScript, isNamed, hnm]
    simp [attrStripPassL, attrStripPassN, allB, allN, hkeep, ihg hs2 hb2, ihc hs3 hb3]

/-! ## Composite preservation through pipeline stages -/

theorem unwantedTagPassesL_preserve (q : Node → Bool) (hci : ChildIndep q) :
    ∀ l, allB (fun n => !(q n)) l = true →
      allB (fun n => !(q n)) (unwantedTagPassesL l) = true := by
  intro l h
  unfold unwantedTagPassesL
  exact removeAllL_preserve _ _ hci _
    (removeAllL_preserve _ _ hci _
      (removeAllL_preserve _ _ hci _
        (removeAllL_preserve _ _ hci _ h)))

theorem middlePassesL_preserve (q : Node → Bool) (hci : ChildIndep q) :
    ∀ l, allB (fun n => !(q n)) l = true →
      allB (fun n => !(q n)) (middlePassesL l) = true := by
  intro l h
  unfold middlePassesL
  exact removeAllL_preserve _ _ hci _
    (removeAllL_preserve _ _ hci _
      (removeFirstL_preserve _ _ hci _
        (removeFirstL_preserve _ _ hci _
          (removeFirstL_preserve _ _ hci _
            (removeAllL_preserve _ _ hci _
              (removeAllL_preserve _ _ hci _
                (removeAllL_preserve _ _ hci _
                  (removeAllL_preserve _ _ hci _
                    (removeAllL_preserve _ _ hci _ h)))))))))

theorem unwantedTagPassesL_preserve_sto :
    ∀ l, allB scriptsTextOnlyOk l = true →
      allB scriptsTextOnlyOk (unwantedTagPassesL l) = true := by
  intro l h
  unfold unwantedTagPassesL
  exact removeAllL_preserve_sto _ (fun _ => rfl) _
    (removeAllL_preserve_sto _ (fun _ => rfl) _
      (removeAllL_preserve_sto _ (fun _ => rfl) _
        (removeAllL_preserve_sto _ (fun _ => rfl) _ h)))

theorem middlePassesL_preserve_sto :
    ∀ l, allB scriptsTextOnlyOk l = true →
      allB scriptsTextOnlyOk (middlePassesL l) = true := by
  intro l h
  unfold middlePassesL
  exact removeAllL_preserve_sto _ (fun _ => rfl) _
    (removeAllL_preserve_sto _ (fun _ => rfl) _
      (removeFirstL_preserve_sto _ (fun _ => rfl) _
        (removeFirstL_preserve_sto _ (fun _ => rfl) _
          (removeFirstL_preserve_sto _ (fun _ => rfl) _
            (removeAllL_preserve_sto _ (fun _ => rfl) _
              (removeAllL_preserve_sto _ (fun _ => rfl) _
                (removeAllL_preserve_sto _ (fun _ => rfl) _
                  (removeAllL_preserve_sto _ (fun _ => rfl) _
                    (removeAllL_preserve_sto _ (fun _ => rfl) _ h)))))))))

theorem middlePassesL_preserve_noBadScript :
    ∀ l, allB scriptsTextOnlyOk l = true →
      allB (fun n => !(badScript n)) l = true →
      allB (fun n => !(badScript n)) (middlePassesL l) = true := by
  intro l hs hb
  unfold middlePassesL
  have s1 := removeAllL_preserve_sto extensionTagBad (fun _ => rfl) _ hs
  have b1 := removeAllL_preserve_noBadScript extensionTagBad (fun _ => rfl) _ hs hb
  have s2 := removeAllL_preserve_sto extensionClassBad (fun _ => rfl) _ s1
  have b2 := removeAllL_preserve_noBadScript extensionClassBad (fun _ => rfl) _ s1 b1
  have s3 := removeAllL_preserve_sto (linkRelBad ["preload", "prefetch"]) (fun _ => rfl) _ s2
  have b3 := removeAllL_preserve_noBadScript (linkRelBad ["preload", "prefetch"]) (fun _ => rfl) _ s2 b2
  have s4 := removeAllL_preserve_sto metaBad (fun _ => rfl) _ s3
  have b4 := removeAllL_preserve_noBadScript metaBad (fun _ => rfl) _ s3 b3
  have s5 := removeAllL_preserve_sto (linkRelBad ["canonical", "alternate"]) (fun _ => rfl) _ s4
  have b5 := removeAllL_preserve_noBadScript (linkRelBad ["canonical", "alternate"]) (fun _ => rfl) _ s4 b4
  have s6 := removeFirstL_preserve_sto (hasId "onetrust-consent-sdk") (fun _ => rfl) _ s5
  have b6 := removeFirstL_preserve_noBadScript (hasId "onetrust-consent-sdk") (fun _ => rfl) _ s5 b5
  have s7 := removeFirstL_preserve_sto (hasId "onetrust-banner-sdk") (fun _ => rfl) _ s6
  have b7 := removeFirstL_preserve_noBadScript (hasId "onetrust-banner-sdk") (fun _ => rfl) _ s6 b6
  have s8 := removeFirstL_preserve_sto (hasId "onetrust-pc-sdk") (fun _ => rfl) _ s7
  have b8 := removeFirstL_preserve_noBadScript (hasId "onetrust-pc-sdk") (fun _ => rfl) _ s7 b7
  have s9 := removeAllL_preserve_sto (hasClassToken "cookie") (fun _ => rfl) _ s8
  have b9 := removeAllL_preserve_noBadScript (hasClassToken "cookie") (fun _ => rfl) _ s8 b8
  exact removeAllL_preserve_noBadScript (hasClassToken "banner") (fun _ => rfl) _ s9 b9

/-! ## Strip-reflection and positive preservation variants -/

theorem hstrip_isNamed (t : String) :
    ∀ nm a gc gc₂, isNamed t (.elem nm (stripAttrsFn nm a) gc) = true →
      isNamed t (.elem nm a gc₂) = true := by
  intro nm a gc gc₂ hv
  simpa [isNamed] using hv

theorem hstrip_aria :
    ∀ nm a gc gc₂, ariaHiddenBad (.elem nm (stripAttrsFn nm a) gc) = true →
      ariaHiddenBad (.elem nm a gc₂) = true := by
  intro nm a gc gc₂ hv
  simp only [ariaHiddenBad, getAttr, lookupA_stripAttrsFn] at hv
  by_cases hk : keepKeyB nm "aria-hidden" = true
  · simpa [ariaHiddenBad, getAttr, hk] using hv
  · simp only [Bool.not_eq_true] at hk
    rw [hk] at hv
    simp at hv

theorem getAttr_elem (k nm : String) (a : List (String × String)) (gc : List Node) :
    getAttr k (.elem nm a gc) = lookupA k a := rfl

theorem hstrip_dn :
    ∀ nm a gc gc₂, displayNoneBad (.elem nm (stripAttrsFn nm a) gc) = true →
      displayNoneBad (.elem nm a gc₂) = true := by
  intro nm a gc gc₂ hv
  by_cases hk : keepKeyB nm "style" = true
  · have heq : lookupA "style" (stripAttrsFn nm a) = lookupA "style" a := by
      rw [lookupA_stripAttrsFn, if_pos hk]
    unfold displayNoneBad at hv ⊢
    rw [getAttr_elem] at hv ⊢
    rw [heq] at hv
    exact hv
  · have heq : lookupA "style" (stripAttrsFn nm a) = none := by
      rw [lookupA_stripAttrsFn, if_neg (by simp [hk])]
    unfold displayNoneBad at hv
    rw [getAttr_elem, heq] at hv
    simp at hv

theorem removeAllL_preserve_pos (p q : Node → Bool) (hci : ChildIndep q) :
    ∀ l, allB q l = true → allB q (removeAllL p l) = true := by
  refine nodeListInd
    (fun l => allB q l = true → allB q (removeAllL p l) = true) ?_ ?_ ?_
  · intro _; simp [removeAllL, removeAllN, allB, allN]
  · intro s cs ih h
    simp only [allB, allN, Bool.and_eq_true] at h
    by_cases hp : p (.text s) = true
    · simp [removeAllL, removeAllN, hp, ih h.2]
    · simp only [Bool.not_eq_true] at hp
      simp [removeAllL, removeAllN, hp, allB, allN, h.1, ih h.2]
  · intro nm a gc cs ihg ihc h
    simp only [allB, allN, Bool.and_eq_true] at h
    obtain ⟨⟨h1, h2⟩, h3⟩ := h
    by_cases hp : p (.elem nm a gc) = true
    · simp [removeAllL, removeAllN, hp, ihc h3]
    · simp only [Bool.not_eq_true] at hp
      have hq : q (.elem nm a (removeAllL p gc)) = true := by
        rw [hci nm a (removeAllL p gc) gc]; exact h1
      simp [removeAllL, removeAllN, hp, allB, allN, hq, ihg h2, ihc h3]

theorem removeFirstL_preserve_pos (p q : Node → Bool) (hci : ChildIndep q) :
    ∀ l, allB q l = true → allB q (removeFirstL p l) = true := by
  refine nodeListInd
    (fun l => allB q l = true → allB q (removeFirstL p l) = true) ?_ ?_ ?_
  · intro _; simp [findFirstN, removeFirstL, removeFirstN, allB, allN]
  · intro s cs ih h
    simp only [allB, allN, Bool.and_eq_true] at h
    by_cases hp : p (.text s) = true
    · simp [findFirstN, removeFirstL, removeFirstN, hp, allB, allN, h.2]
    · simp only [Bool.not_eq_true] at hp
      simp [findFirstN, removeFirstL, removeFirstN, hp, allB, allN, h.1, ih h.2]
  · intro nm a gc cs ihg ihc h
    simp only [allB, allN, Bool.and_eq_true] at h
    obtain ⟨⟨h1, h2⟩, h3⟩ := h
    by_cases hp : p (.elem nm a gc) = true
    · simp [findFirstN, removeFirstL, removeFirstN, hp, allB, allN, h3]
    · simp only [Bool.not_eq_true] at hp
      by_cases hfind : (findFirstL p gc).isSome = true
      · have hq : q (.elem nm a (removeFirstL p gc)) = true := by
          rw [hci nm a (removeFirstL p gc) gc]; exact h1
        simp [findFirstN, removeFirstL, removeFirstN, hp, hfind, allB, allN, hq, ihg h2, h3]
      · simp only [Bool.not_eq_true] at hfind
        simp [findFirstN, removeFirstL, removeFirstN, hp, hfind, allB, allN, h1, h2, ihc h3]

theorem middlePassesL_preserve_pos (q : Node → Bool) (hci : ChildIndep q) :
    ∀ l, allB q l = true → allB q (middlePassesL l) = true := by
  intro l h
  unfold middlePassesL
  exact removeAllL_preserve_pos _ _ hci _
    (removeAllL_preserve_pos _ _ hci _
      (removeFirstL_preserve_pos _ _ hci _
        (removeFirstL_preserve_pos _ _ hci _
          (removeFirstL_preserve_pos _ _ hci _
            (removeAllL_preserve_pos _ _ hci _
              (removeAllL_preserve_pos _ _ hci _
                (removeAllL_preserve_pos _ _ hci _
                  (removeAllL_preserve_pos _ _ hci _
                    (removeAllL_preserve_pos _ _ hci _ h)))))))))

/-! ## Children-independence of the attribute/name-based predicates -/

theorem ci_isNamed (t : String) : ChildIndep (isNamed t) := fun _ _ _ _ => rfl

theorem ci_aria : ChildIndep ariaHiddenBad := fun _ _ _ _ => rfl

theorem ci_dn : ChildIndep displayNoneBad := fun _ _ _ _ => rfl

theorem ci_hasId (i : String) : ChildIndep (hasId i) := fun _ _ _ _ => rfl

theorem ci_classToken (t : String) : ChildIndep (hasClassToken t) := fun _ _ _ _ => rfl

theorem ci_extTag : ChildIndep extensionTagBad := fun _ _ _ _ => rfl

theorem ci_extClass : ChildIndep extensionClassBad := fun _ _ _ _ => rfl

theorem ci_stripFixed : ChildIndep stripFixedOk := fun _ _ _ _ => rfl

/-! ## Invariants of the pipeline output -/

theorem clean_no_style (l : List Node) :
    allB (fun n => !(isNamed "style" n)) (clean_html_filters l) = true := by
  unfold clean_html_filters
  apply removeAllL_preserve _ _ (ci_isNamed "style")
  apply attrStripPassL_preserve _ (hstrip_isNamed "style")
  apply removeAllL_preserve _ _ (ci_isNamed "style")
  apply removeAllL_preserve _ _ (ci_isNamed "style")
  apply middlePassesL_preserve _ (ci_isNamed "style")
  apply removeAllL_preserve _ _ (ci_isNamed "style")
  apply removeAllL_preserve _ _ (ci_isNamed "style")
  unfold unwantedTagPassesL
  apply removeAllL_preserve _ _ (ci_isNamed "style")
  apply removeAllL_preserve _ _ (ci_isNamed "style")
  apply removeAllL_preserve _ _ (ci_isNamed "style")
  exact removeAllL_establish _ _ (ci_isNamed "style") (fun n h => h) l

theorem clean_no_footer (l : List Node) :
    allB (fun n => !(isNamed "footer" n)) (clean_html_filters l) = true := by
  unfold clean_html_filters
  apply removeAllL_preserve _ _ (ci_isNamed "footer")
  apply attrStripPassL_preserve _ (hstrip_isNamed "footer")
  apply removeAllL_preserve _ _ (ci_isNamed "footer")
  apply removeAllL_preserve _ _ (ci_isNamed "footer")
  apply middlePassesL_preserve _ (ci_isNamed "footer")
  apply removeAllL_preserve _ _ (ci_isNamed "footer")
  apply removeAllL_preserve _ _ (ci_isNamed "footer")
  unfold unwantedTagPassesL
  apply removeAllL_preserve _ _ (ci_isNamed "footer")
  apply removeAllL_preserve _ _ (ci_isNamed "footer")
  exact removeAllL_establish _ _ (ci_isNamed "footer") (fun n h => h) _

theorem clean_no_iframe (l : List Node) :
    allB (fun n => !(isNamed "iframe" n)) (clean_html_filters l) = true := by
  unfold clean_html_filters
  apply removeAllL_preserve _ _ (ci_isNamed "iframe")
  apply attrStripPassL_preserve _ (hstrip_isNamed "iframe")
  apply removeAllL_preserve _ _ (ci_isNamed "iframe")
  apply removeAllL_preserve _ _ (ci_isNamed "iframe")
  apply middlePassesL_preserve _ (ci_isNamed "iframe")
  apply removeAllL_preserve _ _ (ci_isNamed "iframe")
  apply removeAllL_preserve _ _ (ci_isNamed "iframe")
  unfold unwantedTagPassesL
  apply removeAllL_preserve _ _ (ci_isNamed "iframe")
  exact removeAllL_establish _ _ (ci_isNamed "iframe") (fun n h => h) _

theorem clean_no_noscript (l : List Node) :
    allB (fun n => !(isNamed "noscript" n)) (clean_html_filters l) = true := by
  unfold clean_html_filters
  apply removeAllL_preserve _ _ (ci_isNamed "noscript")
  apply attrStripPassL_preserve _ (hstrip_isNamed "noscript")
  apply removeAllL_preserve _ _ (ci_isNamed "noscript")
  apply removeAllL_preserve _ _ (ci_isNamed "noscript")
  apply middlePassesL_preserve _ (ci_isNamed "noscript")
  apply removeAllL_preserve _ _ (ci_isNamed "noscript")
  apply removeAllL_preserve _ _ (ci_isNamed "noscript")
  unfold unwantedTagPassesL
  exact removeAllL_establish _ _ (ci_isNamed "noscript") (fun n h => h) _

theorem clean_sto (l : List Node) (hsto : allB scriptsTextOnlyOk l = true) :
    allB scriptsTextOnlyOk (clean_html_filters l) = true := by
  unfold clean_html_filters
  apply removeAllL_preserve_sto _ (fun _ => rfl)
  apply attrStripPassL_preserve_sto
  apply removeAllL_preserve_sto _ (fun _ => rfl)
  apply removeAllL_preserve_sto _ (fun _ => rfl)
  apply middlePassesL_preserve_sto
  apply removeAllL_preserve_sto _ (fun _ => rfl)
  apply removeAllL_preserve_sto _ (fun _ => rfl)
  exact unwantedTagPassesL_preserve_sto l hsto

theorem clean_noBadScript (l : List Node)
    (hsto : allB scriptsTextOnlyOk l = true) :
    allB (fun n => !(badScript n)) (clean_html_filters l) = true := by
  have t4s := unwantedTagPassesL_preserve_sto l hsto
  have h4s := removeAllL_preserve_sto headerRemovable (fun _ => rfl) _ t4s
  have scb := scriptPass_establish_noBadScript _ h4s
  have scs := removeAllL_preserve_sto badScript (fun _ => rfl) _ h4s
  have mpb := middlePassesL_preserve_noBadScript _ scs scb
  have mps := middlePassesL_preserve_sto _ scs
  have vab := removeAllL_preserve_noBadScript ariaHiddenBad (fun _ => rfl) _ mps mpb
  have vas := removeAllL_preserve_sto ariaHiddenBad (fun _ => rfl) _ mps
  have vdb := removeAllL_preserve_noBadScript displayNoneBad (fun _ => rfl) _ vas vab
  have vds := removeAllL_preserve_sto displayNoneBad (fun _ => rfl) _ vas
  have atb := attrStripPassL_preserve_noBadScript _ vds vdb
  have ats := attrStripPassL_preserve_sto _ vds
  exact removeAllL_preserve_noBadScript emptyContainerBad (fun _ => rfl) _ ats atb

theorem clean_noAria (l : List Node) :
    allB (fun n => !(ariaHiddenBad n)) (clean_html_filters l) = true := by
  unfold clean_html_filters
  apply removeAllL_preserve _ _ ci_aria
  apply attrStripPassL_preserve _ hstrip_aria
  apply removeAllL_preserve _ _ ci_aria
  exact removeAllL_establish _ _ ci_aria (fun n h => h) _

theorem clean_noDN (l : List Node) :
    allB (fun n => !(displayNoneBad n)) (clean_html_filters l) = true := by
  unfold clean_html_filters
  apply removeAllL_preserve _ _ ci_dn
  apply attrStripPassL_preserve _ hstrip_dn
  exact removeAllL_establish _ _ ci_dn (fun n h => h) _

theorem clean_stripFixed (l : List Node) :
    allB stripFixedOk (clean_html_filters l) = true := by
  unfold clean_html_filters
  apply removeAllL_preserve_pos _ _ ci_stripFixed
  exact attrStripPassL_establish _

/-! ## Claim theorems -/

/-- C8: the filter pipeline is idempotent for the tag, script,
visibility and attribute filters.  On a second run over the output of
`clean_html_filters` (scripts having the parser shape of raw-text
children), the four `unwanted_tags` removals, the script classifier,
the `aria-hidden` and `display:none` filters and the attribute-pruning
pass each leave their input unchanged — no further removals occur in
those filters.  (The header filter and the emptiness collapse carry no
such guarantee, as the spec notes for nested emptiness.) -/
theorem c8_filter_pipeline_idempotent (l : List Node)
    (hsto : allB scriptsTextOnlyOk l = true) :
    (removeAllL (isNamed "style") (clean_html_filters l) = clean_html_filters l)
    ∧ (removeAllL (isNamed "footer") (clean_html_filters l) = clean_html_filters l)
    ∧ (removeAllL (isNamed "iframe") (clean_html_filters l) = clean_html_filters l)
    ∧ (removeAllL (isNamed "noscript") (clean_html_filters l) = clean_html_filters l)
    ∧ (removeAllL badScript (removeAllL headerRemovable (clean_html_filters l))
        = removeAllL headerRemovable (clean_html_filters l))
    ∧ (removeAllL ariaHiddenBad
          (middlePassesL (removeAllL badScript
            (removeAllL headerRemovable (clean_html_filters l))))
        = middlePassesL (removeAllL badScript
            (removeAllL headerRemovable (clean_html_filters l))))
    ∧ (removeAllL displayNoneBad
          (removeAllL ariaHiddenBad
            (middlePassesL (removeAllL badScript
              (removeAllL headerRemovable (clean_html_filters l)))))
        = removeAllL ariaHiddenBad
            (middlePassesL (removeAllL badScript
              (removeAllL headerRemovable (clean_html_filters l)))))
    ∧ (attrStripPassL
          (removeAllL displayNoneBad
            (removeAllL ariaHiddenBad
              (middlePassesL (removeAllL badScript
                (removeAllL headerRemovable (clean_html_filters l))))))
        = removeAllL displayNoneBad
            (removeAllL ariaHiddenBad
              (middlePassesL (removeAllL badScript
                (removeAllL headerRemovable (clean_html_filters l)))))) := by
  have h1 := removeAllL_id (isNamed "style") _ (clean_no_style l)
  have h2 := removeAllL_id (isNamed "footer") _ (clean_no_footer l)
  have h3 := removeAllL_id (isNamed "iframe") _ (clean_no_iframe l)
  have h4 := removeAllL_id (isNamed "noscript") _ (clean_no_noscript l)
  have hstoC := clean_sto l hsto
  have hbadC := clean_noBadScript l hsto
  have hbadH := removeAllL_preserve_noBadScript headerRemovable (fun _ => rfl) _
    hstoC hbadC
  have h5 := removeAllL_id badScript _ hbadH
  have hariaH := removeAllL_preserve headerRemovable ariaHiddenBad ci_aria _
    (clean_noAria l)
  have hariaM : allB (fun n => !(ariaHiddenBad n))
      (middlePassesL (removeAllL badScript
        (removeAllL headerRemovable (clean_html_filters l)))) = true := by
    rw [h5]
    exact middlePassesL_preserve ariaHiddenBad ci_aria _ hariaH
  have h6 := removeAllL_id ariaHiddenBad _ hariaM
  have hdnH := removeAllL_preserve headerRemovable displayNoneBad ci_dn _
    (clean_noDN l)
  have hdnM : allB (fun n => !(displayNoneBad n))
      (middlePassesL (removeAllL badScript
        (removeAllL headerRemovable (clean_html_filters l)))) = true := by
    rw [h5]
    exact middlePassesL_preserve displayNoneBad ci_dn _ hdnH
  have hdnA := removeAllL_preserve ariaHiddenBad displayNoneBad ci_dn _ hdnM
  have h7 := removeAllL_id displayNoneBad _ hdnA
  have hsfH := removeAllL_preserve_pos headerRemovable stripFixedOk ci_stripFixed _
    (clean_stripFixed l)
  have hsfM : allB stripFixedOk
      (middlePassesL (removeAllL badScript
        (removeAllL headerRemovable (clean_html_filters l)))) = true := by
    rw [h5]
    exact middlePassesL_preserve_pos stripFixedOk ci_stripFixed _ hsfH
  have hsfA := removeAllL_preserve_pos ariaHiddenBad stripFixedOk ci_stripFixed _ hsfM
  have hsfD := removeAllL_preserve_pos displayNoneBad stripFixedOk ci_stripFixed _ hsfA
  have h8 := attrStripPassL_id _ hsfD
  exact ⟨h1, h2, h3, h4, h5, h6, h7, h8⟩

/-- Witness for C8 at a concrete document. -/
theorem c8_filter_pipeline_idempotent_witness :
    allB scriptsTextOnlyOk
      [Node.elem "div" [] [Node.text "hi",
        Node.elem "script" [("src", "https://cdn.example.com/app.js")] []]] = true
    ∧ (removeAllL (isNamed "style")
        (clean_html_filters
          [Node.elem "div" [] [Node.text "hi",
            Node.elem "script" [("src", "https://cdn.example.com/app.js")] []]])
      = clean_html_filters
          [Node.elem "div" [] [Node.text "hi",
            Node.elem "script" [("src", "https://cdn.example.com/app.js")] []]]) :=
  ⟨rfl,
    (c8_filter_pipeline_idempotent
      [Node.elem "div" [] [Node.text "hi",
        Node.elem "script" [("src", "https://cdn.example.com/app.js")] []]] rfl).1⟩

/-! ## Count monotonicity and further strip-reflection lemmas -/

theorem countB_removeAllL_le (p q : Node → Bool) (hci : ChildIndep q) :
    ∀ l, countB q (removeAllL p l) ≤ countB q l := by
  refine nodeListInd (fun l => countB q (removeAllL p l) ≤ countB q l) ?_ ?_ ?_
  · simp [removeAllL, countB]
  · intro s cs ih
    by_cases hp : p (.text s) = true
    · have hred : removeAllL p (Node.text s :: cs) = removeAllL p cs := by
        simp [removeAllL, removeAllN, hp]
      rw [hred]
      have := ih
      simp only [countB, countN]
      omega
    · simp only [Bool.not_eq_true] at hp
      have hred : removeAllL p (Node.text s :: cs)
          = Node.text s :: removeAllL p cs := by
        simp [removeAllL, removeAllN, hp]
      rw [hred]
      have := ih
      simp only [countB, countN]
      omega
  · intro nm a gc cs ihg ihc
    by_cases hp : p (.elem nm a gc) = true
    · have hred : removeAllL p (Node.elem nm a gc :: cs) = removeAllL p cs := by
        simp [removeAllL, removeAllN, hp]
      rw [hred]
      have := ihc
      simp only [countB, countN]
      omega
    · simp only [Bool.not_eq_true] at hp
      have hred : removeAllL p (Node.elem nm a gc :: cs)
          = Node.elem nm a (removeAllL p gc) :: removeAllL p cs := by
        simp [removeAllL, removeAllN, hp]
      rw [hred]
      have hqeq : q (.elem nm a (removeAllL p gc)) = q (.elem nm a gc) :=
        hci nm a (removeAllL p gc) gc
      have := ihg
      have := ihc
      simp only [countB, countN, hqeq]
      omega

theorem countB_removeFirstL_le (p q : Node → Bool) (hci : ChildIndep q) :
    ∀ l, countB q (removeFirstL p l) ≤ countB q l := by
  refine nodeListInd (fun l => countB q (removeFirstL p l) ≤ countB q l) ?_ ?_ ?_
  · simp [removeFirstL, countB]
  · intro s cs ih
    by_cases hp : p (.text s) = true
    · have hred : removeFirstL p (Node.text s :: cs) = cs := by
        simp [removeFirstL, findFirstN, removeFirstN, hp]
      rw [hred]
      simp only [countB, countN]
      omega
    · simp only [Bool.not_eq_true] at hp
      have hred : removeFirstL p (Node.text s :: cs)
          = Node.text s :: removeFirstL p cs := by
        simp [removeFirstL, findFirstN, removeFirstN, hp]
      rw [hred]
      have := ih
      simp only [countB, countN]
      omega
  · intro nm a gc cs ihg ihc
    by_cases hp : p (.elem nm a gc) = true
    · have hred : removeFirstL p (Node.elem nm a gc :: cs) = cs := by
        simp [removeFirstL, findFirstN, removeFirstN, hp]
      rw [hred]
      simp only [countB, countN]
      omega
    · simp only [Bool.not_eq_true] at hp
      cases hfind : findFirstL p gc with
      | some x =>
          have hred : removeFirstL p (Node.elem nm a gc :: cs)
              = Node.elem nm a (removeFirstL p gc) :: cs := by
            simp [removeFirstL, findFirstN, removeFirstN, hp, hfind]
          rw [hred]
          have hqeq : q (.elem nm a (removeFirstL p gc)) = q (.elem nm a gc) :=
            hci nm a (removeFirstL p gc) gc
          have := ihg
          simp only [countB, countN, hqeq]
          omega
      | none =>
          have hred : removeFirstL p (Node.elem nm a gc :: cs)
              = Node.elem nm a gc :: removeFirstL p cs := by
            simp [removeFirstL, findFirstN, removeFirstN, hp, hfind]
          rw [hred]
          have := ihc
          simp only [countB, countN]
          omega

theorem keepKeyB_class (nm : String) : keepKeyB nm "class" = true := by
  simp [keepKeyB, attrs_to_remove]

theorem hstrip_extTag :
    ∀ nm a gc gc₂, extensionTagBad (.elem nm (stripAttrsFn nm a) gc) = true →
      extensionTagBad (.elem nm a gc₂) = true := by
  intro nm a gc gc₂ hv
  simpa [extensionTagBad] using hv

theorem hstrip_extClass :
    ∀ nm a gc gc₂, extensionClassBad (.elem nm (stripAttrsFn nm a) gc) = true →
      extensionClassBad (.elem nm a gc₂) = true := by
  intro nm a gc gc₂ hv
  have heq : lookupA "class" (stripAttrsFn nm a) = lookupA "class" a := by
    rw [lookupA_stripAttrsFn, if_pos (keepKeyB_class nm)]
  unfold extensionClassBad at hv ⊢
  rw [getAttr_elem] at hv ⊢
  rw [heq] at hv
  exact hv

theorem hstrip_hasId (i : String) :
    ∀ nm a gc gc₂, hasId i (.elem nm (stripAttrsFn nm a) gc) = true →
      hasId i (.elem nm a gc₂) = true := by
  intro nm a gc gc₂ hv
  have heq : lookupA "id" (stripAttrsFn nm a) = lookupA "id" a := by
    rw [lookupA_stripAttrsFn, if_pos (keepKeyB_id nm)]
  unfold hasId at hv ⊢
  rw [getAttr_elem] at hv ⊢
  rw [heq] at hv
  exact hv

theorem hstrip_classToken (t : String) :
    ∀ nm a gc gc₂, hasClassToken t (.elem nm (stripAttrsFn nm a) gc) = true →
      hasClassToken t (.elem nm a gc₂) = true := by
  intro nm a gc gc₂ hv
  have heq : lookupA "class" (stripAttrsFn nm a) = lookupA "class" a := by
    rw [lookupA_stripAttrsFn, if_pos (keepKeyB_class nm)]
  unfold hasClassToken classTokens at hv ⊢
  rw [getAttr_elem] at hv ⊢
  rw [heq] at hv
  exact hv

/-- C9 counterexample: the extension-signature matching is
case-sensitive and consults only `class`, so an element classed
`ApolloIO-widget` and an element whose `id` contains `simplify-jobs`
both survive the pipeline, contradicting the claimed case-insensitive
class-or-id removal. -/
theorem c9_counterexample :
    countB (fun n => getAttr "class" n == some "ApolloIO-widget")
      (clean_html_filters
        [Node.elem "html" [] [Node.elem "body" []
          [Node.elem "div" [("class", "ApolloIO-widget")] [Node.text "x"]]]]) = 1
    ∧ countB (fun n => getAttr "id" n == some "simplify-jobs-panel")
        (clean_html_filters
          [Node.elem "html" [] [Node.elem "body" []
            [Node.elem "div" [("id", "simplify-jobs-panel")] [Node.text "x"]]]]) = 1 :=
  ⟨rfl, rfl⟩

/-- C9 (amended): the pruner removes every element matching a known
browser-extension tag name, and every element whose `class` attribute
contains one of the extension signatures `apolloio`,
`extension-opener`, `simplify-jobs` as a case-sensitive substring; the
`id` attribute is not consulted. -/
theorem c9_extension_pruning (l : List Node) :
    allB (fun n => !(extensionTagBad n)) (clean_html_filters l) = true
    ∧ allB (fun n => !(extensionClassBad n)) (clean_html_filters l) = true := by
  constructor
  · unfold clean_html_filters
    apply removeAllL_preserve _ _ ci_extTag
    apply attrStripPassL_preserve _ hstrip_extTag
    apply removeAllL_preserve _ _ ci_extTag
    apply removeAllL_preserve _ _ ci_extTag
    unfold middlePassesL
    apply removeAllL_preserve _ _ ci_extTag
    apply removeAllL_preserve _ _ ci_extTag
    apply removeFirstL_preserve _ _ ci_extTag
    apply removeFirstL_preserve _ _ ci_extTag
    apply removeFirstL_preserve _ _ ci_extTag
    apply removeAllL_preserve _ _ ci_extTag
    apply removeAllL_preserve _ _ ci_extTag
    apply removeAllL_preserve _ _ ci_extTag
    apply removeAllL_preserve _ _ ci_extTag
    exact removeAllL_establish _ _ ci_extTag (fun n h => h) _
  · unfold clean_html_filters
    apply removeAllL_preserve _ _ ci_extClass
    apply attrStripPassL_preserve _ hstrip_extClass
    apply removeAllL_preserve _ _ ci_extClass
    apply removeAllL_preserve _ _ ci_extClass
    unfold middlePassesL
    apply removeAllL_preserve _ _ ci_extClass
    apply removeAllL_preserve _ _ ci_extClass
    apply removeFirstL_preserve _ _ ci_extClass
    apply removeFirstL_preserve _ _ ci_extClass
    apply removeFirstL_preserve _ _ ci_extClass
    apply removeAllL_preserve _ _ ci_extClass
    apply removeAllL_preserve _ _ ci_extClass
    apply removeAllL_preserve _ _ ci_extClass
    exact removeAllL_establish _ _ ci_extClass (fun n h => h) _

/-- Counts of children-independent matches never increase along the
pipeline prefix that precedes the onetrust id removals. -/
theorem countB_prefix_onetrust_le (q : Node → Bool) (hci : ChildIndep q)
    (l : List Node) :
    countB q
      (removeAllL (linkRelBad ["canonical", "alternate"])
        (removeAllL metaBad
          (removeAllL (linkRelBad ["preload", "prefetch"])
            (removeAllL extensionClassBad
              (removeAllL extensionTagBad
                (removeAllL badScript
                  (removeAllL headerRemovable (unwantedTagPassesL l))))))))
      ≤ countB q l := by
  have u : countB q (unwantedTagPassesL l) ≤ countB q l := by
    unfold unwantedTagPassesL
    calc countB q (removeAllL (isNamed "noscript")
            (removeAllL (isNamed "iframe")
              (removeAllL (isNamed "footer") (removeAllL (isNamed "style") l))))
        ≤ countB q (removeAllL (isNamed "iframe")
            (removeAllL (isNamed "footer") (removeAllL (isNamed "style") l))) :=
          countB_removeAllL_le _ _ hci _
      _ ≤ countB q (removeAllL (isNamed "footer") (removeAllL (isNamed "style") l)) :=
          countB_removeAllL_le _ _ hci _
      _ ≤ countB q (removeAllL (isNamed "style") l) := countB_removeAllL_le _ _ hci _
      _ ≤ countB q l := countB_removeAllL_le _ _ hci _
  calc countB q (removeAllL (linkRelBad ["canonical", "alternate"]) _)
      ≤ countB q (removeAllL metaBad
          (removeAllL (linkRelBad ["preload", "prefetch"])
            (removeAllL extensionClassBad
              (removeAllL extensionTagBad
                (removeAllL badScript
                  (removeAllL headerRemovable (unwantedTagPassesL l))))))) :=
        countB_removeAllL_le _ _ hci _
    _ ≤ countB q (removeAllL (linkRelBad ["preload", "prefetch"])
          (removeAllL extensionClassBad
            (removeAllL extensionTagBad
              (removeAllL badScript
                (removeAllL headerRemovable (unwantedTagPassesL l)))))) :=
        countB_removeAllL_le _ _ hci _
    _ ≤ countB q (removeAllL extensionClassBad
          (removeAllL extensionTagBad
            (removeAllL badScript
              (removeAllL headerRemovable (unwantedTagPassesL l))))) :=
        countB_removeAllL_le _ _ hci _
    _ ≤ countB q (removeAllL extensionTagBad
          (removeAllL badScript
            (removeAllL headerRemovable (unwantedTagPassesL l)))) :=
        countB_removeAllL_le _ _ hci _
    _ ≤ countB q (removeAllL badScript
          (removeAllL headerRemovable (unwantedTagPassesL l))) :=
        countB_removeAllL_le _ _ hci _
    _ ≤ countB q (removeAllL headerRemovable (unwantedTagPassesL l)) :=
        countB_removeAllL_le _ _ hci _
    _ ≤ countB q (unwantedTagPassesL l) := countB_removeAllL_le _ _ hci _
    _ ≤ countB q l := u

/-- C10: the pipeline removes every element whose `class` attribute
contains the exact token `cookie` or `banner`, regardless of content,
and (when ids are unique, as `id` attributes are in valid documents)
every element with id `onetrust-consent-sdk`, `onetrust-banner-sdk` or
`onetrust-pc-sdk` — so a content-bearing element classed `banner` never
survives cleaning. -/
theorem c10_cookie_banner_removal (l : List Node)
    (h1 : countB (hasId "onetrust-consent-sdk") l ≤ 1)
    (h2 : countB (hasId "onetrust-banner-sdk") l ≤ 1)
    (h3 : countB (hasId "onetrust-pc-sdk") l ≤ 1) :
    allB (fun n => !(hasClassToken "cookie" n)) (clean_html_filters l) = true
    ∧ allB (fun n => !(hasClassToken "banner" n)) (clean_html_filters l) = true
    ∧ countB (hasId "onetrust-consent-sdk") (clean_html_filters l) = 0
    ∧ countB (hasId "onetrust-banner-sdk") (clean_html_filters l) = 0
    ∧ countB (hasId "onetrust-pc-sdk") (clean_html_filters l) = 0 := by
  refine ⟨?_, ?_, ?_, ?_, ?_⟩
  · unfold clean_html_filters
    apply removeAllL_preserve _ _ (ci_classToken "cookie")
    apply attrStripPassL_preserve _ (hstrip_classToken "cookie")
    apply removeAllL_preserve _ _ (ci_classToken "cookie")
    apply removeAllL_preserve _ _ (ci_classToken "cookie")
    unfold middlePassesL
    apply removeAllL_preserve _ _ (ci_classToken "cookie")
    exact removeAllL_establish _ _ (ci_classToken "cookie") (fun n h => h) _
  · unfold clean_html_filters
    apply removeAllL_preserve _ _ (ci_classToken "banner")
    apply attrStripPassL_preserve _ (hstrip_classToken "banner")
    apply removeAllL_preserve _ _ (ci_classToken "banner")
    apply removeAllL_preserve _ _ (ci_classToken "banner")
    unfold middlePassesL
    exact removeAllL_establish _ _ (ci_classToken "banner") (fun n h => h) _
  · have hc : countB (hasId "onetrust-consent-sdk")
        (removeAllL (linkRelBad ["canonical", "alternate"])
          (removeAllL metaBad
            (removeAllL (linkRelBad ["preload", "prefetch"])
              (removeAllL extensionClassBad
                (removeAllL extensionTagBad
                  (removeAllL badScript
                    (removeAllL headerRemovable (unwantedTagPassesL l)))))))) ≤ 1 :=
      le_trans (countB_prefix_onetrust_le _ (ci_hasId _) l) h1
    have hz := countB_removeFirstL_eq_zero (hasId "onetrust-consent-sdk")
      (ci_hasId _) _ hc
    have ha := allB_of_countB_eq_zero _ _ hz
    have ha2 := removeFirstL_preserve (hasId "onetrust-banner-sdk") _ (ci_hasId _) _ ha
    have ha3 := removeFirstL_preserve (hasId "onetrust-pc-sdk") _ (ci_hasId _) _ ha2
    have ha4 := removeAllL_preserve (hasClassToken "cookie") _ (ci_hasId _) _ ha3
    have ha5 := removeAllL_preserve (hasClassToken "banner") _ (ci_hasId _) _ ha4
    have ha6 := removeAllL_preserve ariaHiddenBad _ (ci_hasId _) _ ha5
    have ha7 := removeAllL_preserve displayNoneBad _ (ci_hasId _) _ ha6
    have ha8 := attrStripPassL_preserve _ (hstrip_hasId "onetrust-consent-sdk") _ ha7
    have ha9 := removeAllL_preserve emptyContainerBad _ (ci_hasId _) _ ha8
    unfold clean_html_filters middlePassesL
    exact countB_eq_zero_of_allB _ _ ha9
  · have hc : countB (hasId "onetrust-banner-sdk")
        (removeFirstL (hasId "onetrust-consent-sdk")
          (removeAllL (linkRelBad ["canonical", "alternate"])
            (removeAllL metaBad
              (removeAllL (linkRelBad ["preload", "prefetch"])
                (removeAllL extensionClassBad
                  (removeAllL extensionTagBad
                    (removeAllL badScript
                      (removeAllL headerRemovable
                        (unwantedTagPassesL l))))))))) ≤ 1 :=
      le_trans (countB_removeFirstL_le _ _ (ci_hasId _) _)
        (le_trans (countB_prefix_onetrust_le _ (ci_hasId _) l) h2)
    have hz := countB_removeFirstL_eq_zero (hasId "onetrust-banner-sdk")
      (ci_hasId _) _ hc
    have ha := allB_of_countB_eq_zero _ _ hz
    have ha3 := removeFirstL_preserve (hasId "onetrust-pc-sdk") _ (ci_hasId _) _ ha
    have ha4 := removeAllL_preserve (hasClassToken "cookie") _ (ci_hasId _) _ ha3
    have ha5 := removeAllL_preserve (hasClassToken "banner") _ (ci_hasId _) _ ha4
    have ha6 := removeAllL_preserve ariaHiddenBad _ (ci_hasId _) _ ha5
    have ha7 := removeAllL_preserve displayNoneBad _ (ci_hasId _) _ ha6
    have ha8 := attrStripPassL_preserve _ (hstrip_hasId "onetrust-banner-sdk") _ ha7
    have ha9 := removeAllL_preserve emptyContainerBad _ (ci_hasId _) _ ha8
    unfold clean_html_filters middlePassesL
    exact countB_eq_zero_of_allB _ _ ha9
  · have hc : countB (hasId "onetrust-pc-sdk")
        (removeFirstL (hasId "onetrust-banner-sdk")
          (removeFirstL (hasId "onetrust-consent-sdk")
            (removeAllL (linkRelBad ["canonical", "alternate"])
              (removeAllL metaBad
                (removeAllL (linkRelBad ["preload", "prefetch"])
                  (removeAllL extensionClassBad
                    (removeAllL extensionTagBad
                      (removeAllL badScript
                        (removeAllL headerRemovable
                          (unwantedTagPassesL l)))))))))) ≤ 1 :=
      le_trans (countB_removeFirstL_le _ _ (ci_hasId _) _)
        (le_trans (countB_removeFirstL_le _ _ (ci_hasId _) _)
          (le_trans (countB_prefix_onetrust_le _ (ci_hasId _) l) h3))
    have hz := countB_removeFirstL_eq_zero (hasId "onetrust-pc-sdk")
      (ci_hasId _) _ hc
    have ha := allB_of_countB_eq_zero _ _ hz
    have ha4 := removeAllL_preserve (hasClassToken "cookie") _ (ci_hasId _) _ ha
    have ha5 := removeAllL_preserve (hasClassToken "banner") _ (ci_hasId _) _ ha4
    have ha6 := removeAllL_preserve ariaHiddenBad _ (ci_hasId _) _ ha5
    have ha7 := removeAllL_preserve displayNoneBad _ (ci_hasId _) _ ha6
    have ha8 := attrStripPassL_preserve _ (hstrip_hasId "onetrust-pc-sdk") _ ha7
    have ha9 := removeAllL_preserve emptyContainerBad _ (ci_hasId _) _ ha8
    unfold clean_html_filters middlePassesL
    exact countB_eq_zero_of_allB _ _ ha9

/-- Witness for C10: a content-bearing element classed `banner` and a
unique onetrust consent element are both removed from a concrete
document. -/
theorem c10_cookie_banner_removal_witness :
    countB (hasId "onetrust-consent-sdk")
      [Node.elem "html" [] [Node.elem "body" []
        [Node.elem "div" [("class", "hero banner")] [Node.text "real content"],
          Node.elem "div" [("id", "onetrust-consent-sdk")] [Node.text "cookies"]]]] ≤ 1
    ∧ allB (fun n => !(hasClassToken "banner" n))
        (clean_html_filters
          [Node.elem "html" [] [Node.elem "body" []
            [Node.elem "div" [("class", "hero banner")] [Node.text "real content"],
              Node.elem "div" [("id", "onetrust-consent-sdk")] [Node.text "cookies"]]]])
        = true :=
  ⟨by decide,
    (c10_cookie_banner_removal
      [Node.elem "html" [] [Node.elem "body" []
        [Node.elem "div" [("class", "hero banner")] [Node.text "real content"],
          Node.elem "div" [("id", "onetrust-consent-sdk")] [Node.text "cookies"]]]]
      (by decide) (by decide) (by decide)).2.1⟩

/-! ## Header/navigation lemmas -/

theorem contains_navigation_of_hasNav (n : Node)
    (h : hasNavDescendant n = true) : contains_navigation n = true := by
  unfold contains_navigation failOpen navigationCheckBody
  simp [h]

theorem hasNav_false_of_contains_false (n : Node)
    (h : contains_navigation n = false) : hasNavDescendant n = false := by
  unfold contains_navigation failOpen navigationCheckBody at h
  simp only [Bool.or_eq_false_iff] at h
  exact h.1.1

theorem findFirstL_isSome_iff_countB_pos (p : Node → Bool) (l : List Node) :
    (findFirstL p l).isSome = true ↔ 1 ≤ countB p l := by
  constructor
  · exact countB_pos_of_findFirstL_isSome p l
  · intro h
    cases hf : findFirstL p l with
    | some x => simp
    | none =>
        have := countB_eq_zero_of_allB p l (allB_of_findFirstL_eq_none p l hf)
        omega

theorem no_nav_imp_no_headerWithNav :
    ∀ l, allB (fun n => !(isNamed "nav" n)) l = true →
      allB (fun n => !(headerWithNav n)) l = true := by
  refine nodeListInd
    (fun l => allB (fun n => !(isNamed "nav" n)) l = true →
      allB (fun n => !(headerWithNav n)) l = true) ?_ ?_ ?_
  · intro _; simp [allB]
  · intro s cs ih h
    simp only [allB, allN, Bool.and_eq_true] at h
    have htx : headerWithNav (Node.text s) = false := rfl
    simp [allB, allN, htx, ih h.2]
  · intro nm a gc cs ihg ihc h
    simp only [allB, allN, Bool.and_eq_true] at h
    obtain ⟨⟨h1, h2⟩, h3⟩ := h
    have hnav : headerWithNav (.elem nm a gc) = false := by
      unfold headerWithNav hasNavDescendant childrenOf
      rw [findFirstL_eq_none_of_allB _ _ h2]
      simp
    simp [allB, allN, hnav, ihg h2, ihc h3]

theorem headerPass_countB_nav :
    ∀ l, countB (isNamed "nav") (removeAllL headerRemovable l)
      = countB (isNamed "nav") l := by
  refine nodeListInd
    (fun l => countB (isNamed "nav") (removeAllL headerRemovable l)
      = countB (isNamed "nav") l) ?_ ?_ ?_
  · simp [removeAllL, countB]
  · intro s cs ih
    simp [removeAllL, removeAllN, headerRemovable, isNamed, countB, countN, ih]
  · intro nm a gc cs ihg ihc
    by_cases hr : headerRemovable (.elem nm a gc) = true
    · have hred : removeAllL headerRemovable (Node.elem nm a gc :: cs)
          = removeAllL headerRemovable cs := by
        simp [removeAllL, removeAllN, hr]
      rw [hred, ihc]
      simp only [headerRemovable, Bool.and_eq_true, Bool.not_eq_true'] at hr
      obtain ⟨hnm, hcn⟩ := hr
      have hnm2 : nm = "header" := by simpa [isNamed] using hnm
      have hnav := hasNav_false_of_contains_false _ hcn
      unfold hasNavDescendant childrenOf at hnav
      have hzero : countB (isNamed "nav") gc = 0 := by
        cases hf : findFirstL (isNamed "nav") gc with
        | some x => simp [hf] at hnav
        | none =>
            exact countB_eq_zero_of_allB _ _ (allB_of_findFirstL_eq_none _ _ hf)
      subst hnm2
      simp [countB, countN, isNamed, hzero]
    · simp only [Bool.not_eq_true] at hr
      have hred : removeAllL headerRemovable (Node.elem nm a gc :: cs)
          = Node.elem nm a (removeAllL headerRemovable gc)
            :: removeAllL headerRemovable cs := by
        simp [removeAllL, removeAllN, hr]
      rw [hred]
      simp only [countB, countN, isNamed, ihg, ihc]

theorem headerPass_countB_headerWithNav :
    ∀ l, countB headerWithNav (removeAllL headerRemovable l)
      = countB headerWithNav l := by
  refine nodeListInd
    (fun l => countB headerWithNav (removeAllL headerRemovable l)
      = countB headerWithNav l) ?_ ?_ ?_
  · simp [removeAllL, countB]
  · intro s cs ih
    simp [removeAllL, removeAllN, headerRemovable, isNamed, countB, countN, ih]
  · intro nm a gc cs ihg ihc
    by_cases hr : headerRemovable (.elem nm a gc) = true
    · have hred : removeAllL headerRemovable (Node.elem nm a gc :: cs)
          = removeAllL headerRemovable cs := by
        simp [removeAllL, removeAllN, hr]
      rw [hred, ihc]
      simp only [headerRemovable, Bool.and_eq_true, Bool.not_eq_true'] at hr
      obtain ⟨hnm, hcn⟩ := hr
      have hnav := hasNav_false_of_contains_false _ hcn
      have hself : headerWithNav (.elem nm a gc) = false := by
        unfold headerWithNav
        rw [hnav]
        simp
      have hzero : countB headerWithNav gc = 0 := by
        unfold hasNavDescendant childrenOf at hnav
        cases hf : findFirstL (isNamed "nav") gc with
        | some x => simp [hf] at hnav
        | none =>
            exact countB_eq_zero_of_allB _ _
              (no_nav_imp_no_headerWithNav _ (allB_of_findFirstL_eq_none _ _ hf))
      simp [countB, countN, hself, hzero]
    · simp only [Bool.not_eq_true] at hr
      have hred : removeAllL headerRemovable (Node.elem nm a gc :: cs)
          = Node.elem nm a (removeAllL headerRemovable gc)
            :: removeAllL headerRemovable cs := by
        simp [removeAllL, removeAllN, hr]
      rw [hred]
      have hsame : headerWithNav (.elem nm a (removeAllL headerRemovable gc))
          = headerWithNav (.elem nm a gc) := by
        unfold headerWithNav hasNavDescendant childrenOf
        have hcnt := headerPass_countB_nav gc
        cases hs₁ : (findFirstL (isNamed "nav") (removeAllL headerRemovable gc)).isSome with
        | true =>
            have hpos := (findFirstL_isSome_iff_countB_pos _ _).1 hs₁
            rw [hcnt] at hpos
            have hg := (findFirstL_isSome_iff_countB_pos (isNamed "nav") gc).2 hpos
            simp [childrenOf, isNamed, hs₁, hg]
        | false =>
            have hnone : findFirstL (isNamed "nav") (removeAllL headerRemovable gc) = none := by
              cases hx : findFirstL (isNamed "nav") (removeAllL headerRemovable gc) with
              | some x => simp [hx] at hs₁
              | none => rfl
            have hz : countB (isNamed "nav") (removeAllL headerRemovable gc) = 0 :=
              countB_eq_zero_of_allB _ _ (allB_of_findFirstL_eq_none _ _ hnone)
            rw [hcnt] at hz
            have hnone₂ : findFirstL (isNamed "nav") gc = none := by
              cases hx : findFirstL (isNamed "nav") gc with
              | some x =>
                  have := (findFirstL_isSome_iff_countB_pos (isNamed "nav") gc).1
                    (by simp [hx])
                  omega
              | none => rfl
            simp [childrenOf, isNamed, hnone, hnone₂]
      simp only [countB, countN, hsame, ihg, ihc]

/-- C3 counterexample: a header with a `<nav>` descendant makes
`contains_navigation` true, yet the header does not survive the full
filter pipeline when another removal rule matches it — here the
class-token `banner` pass deletes it.  The claim's "survives the filter
pipeline" is therefore false as stated. -/
theorem c3_counterexample :
    hasNavDescendant
      (Node.elem "header" [("class", "banner")]
        [Node.elem "nav" [] [Node.text "menu"]]) = true
    ∧ contains_navigation
        (Node.elem "header" [("class", "banner")]
          [Node.elem "nav" [] [Node.text "menu"]]) = true
    ∧ countB (isNamed "header")
        (clean_html_filters
          [Node.elem "html" [] [Node.elem "body" []
            [Node.elem "header" [("class", "banner")]
              [Node.elem "nav" [] [Node.text "menu"]]]]]) = 0 :=
  ⟨rfl, rfl, rfl⟩

/-- C3 (amended): for every element with a `<nav>` descendant,
`contains_navigation` returns true, and the navigation-aware
header-removal filter removes no header having a `<nav>` descendant
(their count is preserved by that pass).  Survival of the full
pipeline additionally requires that no other removal rule matches the
header or an ancestor. -/
theorem c3_header_nav_safety :
    (∀ n, hasNavDescendant n = true → contains_navigation n = true)
    ∧ (∀ l, countB headerWithNav (removeAllL headerRemovable l)
        = countB headerWithNav l) :=
  ⟨contains_navigation_of_hasNav, headerPass_countB_headerWithNav⟩

/-- Witness for C3 at a concrete nav-bearing header. -/
theorem c3_header_nav_safety_witness :
    hasNavDescendant
      (Node.elem "header" [] [Node.elem "nav" [] [Node.text "m"]]) = true
    ∧ contains_navigation
        (Node.elem "header" [] [Node.elem "nav" [] [Node.text "m"]]) = true
    ∧ countB headerWithNav
        (removeAllL headerRemovable
          [Node.elem "header" [] [Node.elem "nav" [] [Node.text "m"]]])
      = countB headerWithNav
          [Node.elem "header" [] [Node.elem "nav" [] [Node.text "m"]]] :=
  ⟨rfl,
    c3_header_nav_safety.1
      (Node.elem "header" [] [Node.elem "nav" [] [Node.text "m"]]) rfl,
    c3_header_nav_safety.2
      [Node.elem "header" [] [Node.elem "nav" [] [Node.text "m"]]]⟩

/-- C4: the navigation-check predicate is guarded by a fail-open
`try/except` (`failOpen`, the translation of lines 707-709):
whenever the check body raises, the predicate answers true without
propagating, and the header-removal pass (whose predicate is exactly
`isNamed "header" && !(failOpen body)`, as `headerRemovable` is for
`contains_navigation = failOpen navigationCheckBody`) retains the
header being evaluated. -/
theorem c4_fail_open (f : Node → Except String Bool) (msg : String)
    (attrs : List (String × String)) (gc : List Node)
    (h : f (.elem "header" attrs gc) = .error msg) :
    failOpen f (.elem "header" attrs gc) = true
    ∧ removeAllL (fun n => isNamed "header" n && !(failOpen f n))
        [Node.elem "header" attrs gc]
      = [Node.elem "header" attrs
          (removeAllL (fun n => isNamed "header" n && !(failOpen f n)) gc)]
    ∧ (∀ n, headerRemovable n
        = (isNamed "header" n && !(failOpen navigationCheckBody n))) := by
  have hf : failOpen f (.elem "header" attrs gc) = true := by
    unfold failOpen
    rw [h]
  refine ⟨hf, ?_, fun n => rfl⟩
  simp [removeAllL, removeAllN, hf]

/-- Witness for C4: a body that always raises leads to retention. -/
theorem c4_fail_open_witness :
    (fun _ => (Except.error "boom" : Except String Bool))
        (Node.elem "header" [] [Node.text "x"]) = Except.error "boom"
    ∧ failOpen (fun _ => (Except.error "boom" : Except String Bool))
        (Node.elem "header" [] [Node.text "x"]) = true :=
  ⟨rfl,
    (c4_fail_open (fun _ => (Except.error "boom" : Except String Bool)) "boom"
      [] [Node.text "x"] rfl).1⟩

/-! ## Attribute-key facts for the pruning pass -/

theorem keepKeyB_style_nonstructural (nm : String) (hnm : ¬(nm ∈ structuralTags)) :
    keepKeyB nm "style" = false := by
  simp [keepKeyB, hnm, attrs_to_remove]

theorem keepKeyB_denylist (nm k : String) (hk : k ∈ attrs_to_remove) :
    keepKeyB nm k = false := by
  simp [keepKeyB, hk]

theorem keepKeyB_other (nm k : String) (hs : k ≠ "style")
    (hd : ¬(k ∈ attrs_to_remove)) : keepKeyB nm k = true := by
  simp [keepKeyB, hs, hd]

/-- C6: after the attribute-pruning pass, every element that is not one
of `html`/`head`/`body` has lost its `style` attribute and every
denylisted vendor attribute, while every other attribute (`class` in
particular) keeps its value. -/
theorem c6_attribute_pruning (l : List Node) (nm : String)
    (a : List (String × String)) (hnm : ¬(nm ∈ structuralTags)) :
    lookupA "style" (stripAttrsFn nm a) = none
    ∧ (∀ k, k ∈ attrs_to_remove → lookupA k (stripAttrsFn nm a) = none)
    ∧ (∀ k, k ≠ "style" → ¬(k ∈ attrs_to_remove) →
        lookupA k (stripAttrsFn nm a) = lookupA k a)
    ∧ allB attrsPrunedOk (attrStripPassL l) = true := by
  refine ⟨?_, ?_, ?_, ?_⟩
  · rw [lookupA_stripAttrsFn, keepKeyB_style_nonstructural nm hnm]
    simp
  · intro k hk
    rw [lookupA_stripAttrsFn, keepKeyB_denylist nm k hk]
    simp
  · intro k hs hd
    rw [lookupA_stripAttrsFn, keepKeyB_other nm k hs hd]
    simp
  · refine nodeListInd (fun l => allB attrsPrunedOk (attrStripPassL l) = true)
      ?_ ?_ ?_ l
    · simp [attrStripPassL, allB]
    · intro s cs ih
      simp [attrStripPassL, attrStripPassN, allB, allN, attrsPrunedOk, ih]
    · intro nm₂ a₂ gc cs ihg ihc
      have hok : attrsPrunedOk (.elem nm₂ (stripAttrsFn nm₂ a₂) (attrStripPassL gc))
          = true := by
        by_cases hst : nm₂ ∈ structuralTags
        · simp [attrsPrunedOk, hst]
        · have h1 : lookupA "style" (stripAttrsFn nm₂ a₂) = none := by
            rw [lookupA_stripAttrsFn, keepKeyB_style_nonstructural nm₂ hst]
            simp
          have h2 : ∀ k ∈ attrs_to_remove, lookupA k (stripAttrsFn nm₂ a₂) = none := by
            intro k hk
            rw [lookupA_stripAttrsFn, keepKeyB_denylist nm₂ k hk]
            simp
          simp only [attrsPrunedOk, h1]
          rw [List.all_eq_true.2 (fun k hk => by simp [h2 k hk])]
          simp
      simp [attrStripPassL, attrStripPassN, allB, allN, hok, ihg, ihc]

/-- Witness for C6 at the spec's example element. -/
theorem c6_attribute_pruning_witness :
    ¬("div" ∈ structuralTags)
    ∧ lookupA "style"
        (stripAttrsFn "div"
          [("style", "display:block"), ("data-parsley-required", "x"),
            ("class", "c")]) = none
    ∧ lookupA "class"
        (stripAttrsFn "div"
          [("style", "display:block"), ("data-parsley-required", "x"),
            ("class", "c")])
      = lookupA "class"
          [("style", "display:block"), ("data-parsley-required", "x"),
            ("class", "c")] :=
  ⟨by decide,
    (c6_attribute_pruning []
      "div" [("style", "display:block"), ("data-parsley-required", "x"),
        ("class", "c")] (by decide)).1,
    (c6_attribute_pruning []
      "div" [("style", "display:block"), ("data-parsley-required", "x"),
        ("class", "c")] (by decide)).2.2.1 "class" (by decide) (by decide)⟩

/-- C5: the script classifier removes every `<script>` whose `src`
contains a tracking-vendor signature case-insensitively; it retains (the
pass keeps the node) every `<script>` matching no tracking,
structured-data, or inline-tracking signature; absent `src`/`id`
attributes behave as empty strings; classification is a total Boolean
decision (it cannot raise); and the two spec examples classify as
stated. -/
theorem c5_script_classifier :
    (∀ a gc tok, tok ∈ trackerSrcList →
      strContains (pyToLower ((lookupA "src" a).getD "")) tok = true →
      badScript (.elem "script" a gc) = true)
    ∧ (∀ l, allB scriptsTextOnlyOk l = true →
        allB (fun n => !(badScript n)) (removeAllL badScript l) = true)
    ∧ (∀ a gc, scriptRemovableB (.elem "script" a gc) = false →
        removeAllL badScript [Node.elem "script" a gc]
          = [Node.elem "script" a (removeAllL badScript gc)])
    ∧ (∀ a gc, lookupA "src" a = none → lookupA "id" a = none →
        scriptRemovableB (.elem "script" a gc)
          = scriptRemovableB (.elem "script" (("src", "") :: ("id", "") :: a) gc))
    ∧ badScript (.elem "script"
        [("src", "https://www.googletagmanager.com/gtm.js")] []) = true
    ∧ badScript (.elem "script"
        [("src", "https://cdn.example.com/app.js")] []) = false := by
  refine ⟨?_, ?_, ?_, ?_, rfl, rfl⟩
  · intro a gc tok htok hsub
    have hany : (trackerSrcList.any
        (fun t => strContains (pyToLower ((lookupA "src" a).getD "")) t)) = true :=
      List.any_eq_true.2 ⟨tok, htok, hsub⟩
    simp [badScript, isNamed, scriptRemovableB, hany]
  · exact scriptPass_establish_noBadScript
  · intro a gc hrm
    have hbad : badScript (.elem "script" a gc) = false := by
      simp [badScript, hrm]
    simp [removeAllL, removeAllN, hbad]
  · intro a gc h1 h2
    simp [scriptRemovableB, lookupA, h1, h2]

/-- Witness for C5: the googletagmanager script satisfies the tracking
hypothesis and is classified for removal; the pass keeps the cdn
script. -/
theorem c5_script_classifier_witness :
    ("googletagmanager" ∈ trackerSrcList)
    ∧ strContains
        (pyToLower ((lookupA "src"
          [("src", "https://www.googletagmanager.com/gtm.js")]).getD ""))
        "googletagmanager" = true
    ∧ badScript (.elem "script"
        [("src", "https://www.googletagmanager.com/gtm.js")] []) = true
    ∧ removeAllL badScript
        [Node.elem "script" [("src", "https://cdn.example.com/app.js")] []]
      = [Node.elem "script" [("src", "https://cdn.example.com/app.js")]
          (removeAllL badScript [])] :=
  ⟨by decide, rfl,
    (c5_script_classifier).1 [("src", "https://www.googletagmanager.com/gtm.js")]
      [] "googletagmanager" (by decide) rfl,
    (c5_script_classifier).2.2.1 [("src", "https://cdn.example.com/app.js")] [] rfl⟩

/-! ## Whitespace-collapse lemmas -/

theorem wordsGo_words :
    ∀ (cs cur : List Char), cur.all (fun c => !(isPySpace c)) = true →
      ∀ w ∈ wordsGo cur cs, w ≠ [] ∧ w.all (fun c => !(isPySpace c)) = true := by
  intro cs
  induction cs with
  | nil =>
      intro cur hcur w hw
      by_cases hemp : cur.isEmpty = true
      · simp [wordsGo, hemp] at hw
      · simp only [Bool.not_eq_true] at hemp
        simp only [wordsGo, hemp, Bool.false_eq_true, if_false,
          List.mem_singleton] at hw
        subst hw
        constructor
        · simp only [ne_eq, List.reverse_eq_nil_iff]
          simpa using hemp
        · simpa [List.all_reverse] using hcur
  | cons c rest ih =>
      intro cur hcur w hw
      by_cases hsp : isPySpace c = true
      · by_cases hemp : cur.isEmpty = true
        · simp only [wordsGo, hsp, hemp, if_true] at hw
          exact ih [] rfl w hw
        · simp only [Bool.not_eq_true] at hemp
          simp only [wordsGo, hsp, hemp, Bool.false_eq_true, if_true, if_false] at hw
          rcases List.mem_cons.1 hw with hw | hw
          · subst hw
            constructor
            · simp only [ne_eq, List.reverse_eq_nil_iff]
              simpa using hemp
            · simpa [List.all_reverse] using hcur
          · exact ih [] rfl w hw
      · simp only [Bool.not_eq_true] at hsp
        simp only [wordsGo, hsp] at hw
        exact ih (c :: cur) (by simp [hcur, hsp]) w hw

theorem noAdj_of_all_nonspace :
    ∀ w : List Char, w.all (fun c => !(isPySpace c)) = true →
      noAdjacentWs w = true := by
  intro w
  induction w with
  | nil => intro _; rfl
  | cons c w ih =>
      intro h
      simp only [List.all_cons, Bool.and_eq_true, Bool.not_eq_true'] at h
      cases w with
      | nil => rfl
      | cons d t =>
          have h2 := ih h.2
          simp [noAdjacentWs, h.1, h2]

theorem noAdj_append (rest : List Char) (hrest : noAdjacentWs rest = true)
    (hhead : ∀ r t, rest = r :: t → isPySpace r = false) :
    ∀ w, w.all (fun c => !(isPySpace c)) = true →
      noAdjacentWs (w ++ ' ' :: rest) = true := by
  intro w
  induction w with
  | nil =>
      intro _
      cases rest with
      | nil => rfl
      | cons r t =>
          have hr := hhead r t rfl
          simp [noAdjacentWs, hr, hrest]
  | cons c w₂ ih =>
      intro hall
      simp only [List.all_cons, Bool.and_eq_true, Bool.not_eq_true'] at hall
      cases w₂ with
      | nil =>
          have htail := ih (by simp)
          simpa [noAdjacentWs, hall.1] using htail
      | cons d w₃ =>
          have htail := ih hall.2
          simpa [noAdjacentWs, hall.1] using htail

theorem joinWords_cons_shape (w : List Char) (ws : List (List Char)) :
    joinWords (w :: ws)
      = w ++ (match ws with | [] => [] | _ :: _ => ' ' :: joinWords ws) := by
  cases ws with
  | nil => simp [joinWords]
  | cons w₂ ws₂ => rfl

theorem joinWords_noAdj :
    ∀ ws : List (List Char),
      (∀ w ∈ ws, w ≠ [] ∧ w.all (fun c => !(isPySpace c)) = true) →
      noAdjacentWs (joinWords ws) = true := by
  intro ws
  induction ws with
  | nil => intro _; rfl
  | cons w ws ih =>
      intro h
      cases ws with
      | nil =>
          have := (h w (by simp)).2
          simpa [joinWords] using noAdj_of_all_nonspace w this
      | cons w₂ ws₂ =>
          have hshape : joinWords (w :: w₂ :: ws₂) = w ++ ' ' :: joinWords (w₂ :: ws₂) := rfl
          rw [hshape]
          apply noAdj_append
          · exact ih (fun x hx => h x (by simp [hx]))
          · intro r t hrt
            obtain ⟨hne, hall⟩ := h w₂ (by simp)
            cases hw₂ : w₂ with
            | nil => exact absurd hw₂ hne
            | cons c w₃ =>
                rw [joinWords_cons_shape, hw₂] at hrt
                simp only [List.cons_append] at hrt
                have hcr : c = r := by
                  injection hrt with h1 _
                have hc : isPySpace c = false := by
                  rw [hw₂] at hall
                  simp only [List.all_cons, Bool.and_eq_true, Bool.not_eq_true'] at hall
                  exact hall.1
                rw [← hcr]
                exact hc
          · exact (h w (by simp)).2

/-- C7: `simplify_html_for_prompt` leaves every element attribute-free
except anchors with an `href`, which retain exactly that `href` value
and nothing else, and the serialized result contains no two adjacent
whitespace characters (all whitespace runs collapsed to single
spaces). -/
theorem c7_simplify_for_prompt :
    (∀ l, allB promptAttrsOk (promptStripL l) = true)
    ∧ (∀ a v, lookupA "href" a = some v →
        promptKeepAttrs "a" a = [("href", v)])
    ∧ (∀ nm a, nm ≠ "a" → promptKeepAttrs nm a = [])
    ∧ (∀ l, noAdjacentWs (simplify_html_for_prompt l).toList = true) := by
  refine ⟨?_, ?_, ?_, ?_⟩
  · refine nodeListInd (fun l => allB promptAttrsOk (promptStripL l) = true) ?_ ?_ ?_
    · simp [promptStripL, allB]
    · intro s cs ih
      simp [promptStripL, promptStripN, allB, allN, promptAttrsOk, ih]
    · intro nm a gc cs ihg ihc
      have hok : promptAttrsOk (.elem nm (promptKeepAttrs nm a) (promptStripL gc))
          = true := by
        by_cases hnm : (nm == "a") = true
        · cases hh : lookupA "href" a with
          | some v => simp [promptAttrsOk, promptKeepAttrs, hnm, hh]
          | none => simp [promptAttrsOk, promptKeepAttrs, hnm, hh]
        · simp only [Bool.not_eq_true] at hnm
          simp [promptAttrsOk, promptKeepAttrs, hnm]
      simp [promptStripL, promptStripN, allB, allN, hok, ihg, ihc]
  · intro a v h
    simp [promptKeepAttrs, h]
  · intro nm a hne
    simp [promptKeepAttrs, hne]
  · intro l
    unfold simplify_html_for_prompt pyCollapseWs
    have htl : (String.mk (joinWords
        (wordsGo [] (serializeL (promptStripL l)).toList))).toList
        = joinWords (wordsGo [] (serializeL (promptStripL l)).toList) := rfl
    rw [htl]
    exact joinWords_noAdj _
      (wordsGo_words (serializeL (promptStripL l)).toList [] rfl)

/-- Witness for C7 at the spec's example anchor. -/
theorem c7_simplify_for_prompt_witness :
    lookupA "href" [("href", "https://x.test/page"), ("id", "z")]
      = some "https://x.test/page"
    ∧ promptKeepAttrs "a" [("href", "https://x.test/page"), ("id", "z")]
      = [("href", "https://x.test/page")] :=
  ⟨rfl,
    c7_simplify_for_prompt.2.1 [("href", "https://x.test/page"), ("id", "z")]
      "https://x.test/page" rfl⟩

/-- C2 counterexample: a document with a `<body>` but no `<main>`, no
`id="main-content"` and no `role="main"` makes the splicer fail with
NotFound, while the extractor's candidate search would fall back to the
body — the splicer has no body/whole-document fallback. -/
theorem c2_counterexample :
    replace_main_and_inject_css
      [Node.elem "html" [] [Node.elem "head" [] [],
        Node.elem "body" [] [Node.elem "p" [] [Node.text "x"]]]]
      [Node.elem "main" [] []]
      = .error .notFound
    ∧ extract_main_candidate
        [Node.elem "html" [] [Node.elem "head" [] [],
          Node.elem "body" [] [Node.elem "p" [] [Node.text "x"]]]]
      = .node (Node.elem "body" [] [Node.elem "p" [] [Node.text "x"]]) :=
  ⟨rfl, rfl⟩

/-- C2 (amended): the splicer's candidate search runs in the same order
as the extractor's first three stages (`main` tag, then
`id="main-content"`, then `role="main"`) — whenever that shared search
finds a node, the extractor selects the same node — but the splicer has
no body/whole-document fallback: it fails with NotFound exactly when
the three-stage search finds nothing. -/
theorem c2_notfound_characterization :
    (∀ soup r, isNotFound (replace_main_and_inject_css soup r) = true
      ↔ findMainCandidate3 soup = none)
    ∧ (∀ soup m, findMainCandidate3 soup = some m →
        extract_main_candidate soup = .node m) := by
  constructor
  · intro soup r
    unfold replace_main_and_inject_css
    have hnever : ∀ p : Node → Bool,
        isNotFound
          (match findFirstL isMainTag r with
            | none => Except.error SpliceError.malformedMain
            | some modelMain =>
                if (findFirstL (isNamed "head") (replaceFirstL p modelMain soup)).isSome then
                  Except.ok (modifyFirstL (isNamed "head") injectIntoHead
                    (replaceFirstL p modelMain soup))
                else if (findFirstL (isNamed "html") (replaceFirstL p modelMain soup)).isSome then
                  Except.ok (modifyFirstL (isNamed "html") prependNewHead
                    (replaceFirstL p modelMain soup))
                else Except.error SpliceError.noHtmlElement) = false := by
      intro p
      cases h4 : findFirstL isMainTag r with
      | none => simp [isNotFound]
      | some mm =>
          by_cases h5 : (findFirstL (isNamed "head") (replaceFirstL p mm soup)).isSome = true
          · simp [h5, isNotFound]
          · by_cases h6 : (findFirstL (isNamed "html") (replaceFirstL p mm soup)).isSome = true
            · simp [h5, h6, isNotFound]
            · simp [h5, h6, isNotFound]
    by_cases h1 : (findFirstL isMainTag soup).isSome = true
    · obtain ⟨m, hm⟩ := Option.isSome_iff_exists.1 h1
      simp only [h1, if_true]
      rw [hnever isMainTag]
      unfold findMainCandidate3
      rw [hm]
      simp
    · simp only [Bool.not_eq_true] at h1
      have h1n : findFirstL isMainTag soup = none := by
        cases hx : findFirstL isMainTag soup with
        | some y => rw [hx] at h1; simp at h1
        | none => rfl
      by_cases h2 : (findFirstL isMainContentId soup).isSome = true
      · obtain ⟨m, hm⟩ := Option.isSome_iff_exists.1 h2
        simp only [h1, h2, if_true, Bool.false_eq_true, if_false]
        rw [hnever isMainContentId]
        unfold findMainCandidate3
        rw [h1n, hm]
        simp
      · simp only [Bool.not_eq_true] at h2
        have h2n : findFirstL isMainContentId soup = none := by
          cases hx : findFirstL isMainContentId soup with
          | some y => rw [hx] at h2; simp at h2
          | none => rfl
        by_cases h3 : (findFirstL isMainRole soup).isSome = true
        · obtain ⟨m, hm⟩ := Option.isSome_iff_exists.1 h3
          simp only [h1, h2, h3, if_true, Bool.false_eq_true, if_false]
          rw [hnever isMainRole]
          unfold findMainCandidate3
          rw [h1n, h2n, hm]
          simp
        · simp only [Bool.not_eq_true] at h3
          have h3n : findFirstL isMainRole soup = none := by
            cases hx : findFirstL isMainRole soup with
            | some y => rw [hx] at h3; simp at h3
            | none => rfl
          simp only [h1, h2, h3, Bool.false_eq_true, if_false]
          unfold findMainCandidate3
          rw [h1n, h2n, h3n]
          simp [isNotFound]
  · intro soup m h
    unfold extract_main_candidate
    rw [h]

/-- Witness for C2: on a document whose first candidate is a `<main>`,
the shared search returns it and the extractor selects the same node. -/
theorem c2_notfound_characterization_witness :
    findMainCandidate3 [Node.elem "main" [] [Node.text "y"]]
      = some (Node.elem "main" [] [Node.text "y"])
    ∧ extract_main_candidate [Node.elem "main" [] [Node.text "y"]]
      = .node (Node.elem "main" [] [Node.text "y"]) :=
  ⟨rfl,
    c2_notfound_characterization.2 [Node.elem "main" [] [Node.text "y"]]
      (Node.elem "main" [] [Node.text "y"]) rfl⟩

/-- C1 counterexample: an original document with two `<main>` elements
satisfies "contains a `<main>`", yet the spliced output contains two
`<main>` elements (only the first is replaced), so "exactly one
`<main>`" fails as universally stated. -/
theorem c1_counterexample :
    countInResult (isNamed "main")
      (replace_main_and_inject_css
        [Node.elem "html" [] [Node.elem "head" [] [],
          Node.elem "body" []
            [Node.elem "main" [] [Node.text "A"],
              Node.elem "main" [] [Node.text "B"]]]]
        [Node.elem "main" [] [Node.text "N"]]) = 2 := rfl

/-- C1 (amended): for an original document `html[head hs, body
(pre ++ main ++ post)]` whose head and surrounding siblings contain no
other `<main>` and at most one previously injected style (none
elsewhere), and a replacement that is a single `<main>` with no nested
`<main>` or injected style, the splice succeeds and returns the
document with exactly that structure: the head contents and body
siblings unchanged except that the first previously injected style is
removed and a fresh `<style id="site-simplify-a11y">` appended to the
head, the original `<main>` replaced by the replacement; the output
has exactly one `<main>` (the replacement, with its content) and
exactly one injected style element, inside the head. -/
theorem c1_splice_correctness
    (ha hda ba ma ra : List (String × String))
    (hs pre post mcs rcs : List Node)
    (Hm1 : allB (fun n => !(isNamed "main" n)) hs = true)
    (Hm2 : allB (fun n => !(isNamed "main" n)) pre = true)
    (Hm3 : allB (fun n => !(isNamed "main" n)) post = true)
    (Hm4 : allB (fun n => !(isNamed "main" n)) rcs = true)
    (Hs1 : countB isInjectedStyle hs ≤ 1)
    (Hs2 : allB (fun n => !(isInjectedStyle n)) pre = true)
    (Hs3 : allB (fun n => !(isInjectedStyle n)) post = true)
    (Hs4 : allB (fun n => !(isInjectedStyle n)) rcs = true) :
    replace_main_and_inject_css
      [Node.elem "html" ha [Node.elem "head" hda hs,
        Node.elem "body" ba (pre ++ Node.elem "main" ma mcs :: post)]]
      [Node.elem "main" ra rcs]
    = .ok [Node.elem "html" ha
        [Node.elem "head" hda (removeFirstL isInjectedStyle hs ++ [styleTag]),
          Node.elem "body" ba (pre ++ Node.elem "main" ra rcs :: post)]]
    ∧ countB (isNamed "main")
        [Node.elem "html" ha
          [Node.elem "head" hda (removeFirstL isInjectedStyle hs ++ [styleTag]),
            Node.elem "body" ba (pre ++ Node.elem "main" ra rcs :: post)]] = 1
    ∧ findFirstL (isNamed "main")
        [Node.elem "html" ha
          [Node.elem "head" hda (removeFirstL isInjectedStyle hs ++ [styleTag]),
            Node.elem "body" ba (pre ++ Node.elem "main" ra rcs :: post)]]
      = some (Node.elem "main" ra rcs)
    ∧ countB isInjectedStyle
        [Node.elem "html" ha
          [Node.elem "head" hda (removeFirstL isInjectedStyle hs ++ [styleTag]),
            Node.elem "body" ba (pre ++ Node.elem "main" ra rcs :: post)]] = 1 := by
  have hhs := findFirstL_eq_none_of_allB (isNamed "main") hs Hm1
  have happ : findFirstL (isNamed "main") (pre ++ Node.elem "main" ma mcs :: post)
      = findFirstL (isNamed "main") (Node.elem "main" ma mcs :: post) :=
    findFirstL_append_of_allB _ _ _ Hm2
  have happr : replaceFirstL (isNamed "main") (Node.elem "main" ra rcs)
        (pre ++ Node.elem "main" ma mcs :: post)
      = pre ++ replaceFirstL (isNamed "main") (Node.elem "main" ra rcs)
          (Node.elem "main" ma mcs :: post) :=
    replaceFirstL_append_of_allB _ _ _ _ Hm2
  have hMT : isMainTag = isNamed "main" := funext (fun _ => rfl)
  have hsel : findFirstL isMainTag
      [Node.elem "html" ha [Node.elem "head" hda hs,
        Node.elem "body" ba (pre ++ Node.elem "main" ma mcs :: post)]]
      = some (Node.elem "main" ma mcs) := by
    simp [findFirstL, findFirstN, hMT, isNamed, hhs, happ]
  have ht1 : replaceFirstL isMainTag (Node.elem "main" ra rcs)
      [Node.elem "html" ha [Node.elem "head" hda hs,
        Node.elem "body" ba (pre ++ Node.elem "main" ma mcs :: post)]]
      = [Node.elem "html" ha [Node.elem "head" hda hs,
          Node.elem "body" ba (pre ++ Node.elem "main" ra rcs :: post)]] := by
    simp [replaceFirstL, replaceFirstN, findFirstN, findFirstL, hMT, isNamed,
      hhs, happ, happr]
  have hfmr : findFirstL isMainTag [Node.elem "main" ra rcs]
      = some (Node.elem "main" ra rcs) := by
    simp [findFirstL, findFirstN, hMT, isNamed]
  have hok : replace_main_and_inject_css
      [Node.elem "html" ha [Node.elem "head" hda hs,
        Node.elem "body" ba (pre ++ Node.elem "main" ma mcs :: post)]]
      [Node.elem "main" ra rcs]
      = .ok (modifyFirstL (isNamed "head") injectIntoHead
          [Node.elem "html" ha [Node.elem "head" hda hs,
            Node.elem "body" ba (pre ++ Node.elem "main" ra rcs :: post)]]) := by
    unfold replace_main_and_inject_css
    rw [hsel]
    simp only [Option.isSome_some, if_true]
    rw [hfmr]
    simp only [ht1]
    have hhead : findFirstL (isNamed "head")
        [Node.elem "html" ha [Node.elem "head" hda hs,
          Node.elem "body" ba (pre ++ Node.elem "main" ra rcs :: post)]]
        = some (Node.elem "head" hda hs) := by
      simp [findFirstL, findFirstN, isNamed]
    rw [hhead]
    simp
  have hmod : modifyFirstL (isNamed "head") injectIntoHead
      [Node.elem "html" ha [Node.elem "head" hda hs,
        Node.elem "body" ba (pre ++ Node.elem "main" ra rcs :: post)]]
      = [Node.elem "html" ha
          [Node.elem "head" hda (removeFirstL isInjectedStyle hs ++ [styleTag]),
            Node.elem "body" ba (pre ++ Node.elem "main" ra rcs :: post)]] := by
    simp [modifyFirstL, modifyFirstN, findFirstN, findFirstL, isNamed, injectIntoHead]
  have hhsP : allB (fun n => !(isNamed "main" n))
      (removeFirstL isInjectedStyle hs) = true :=
    removeFirstL_preserve isInjectedStyle (isNamed "main") (ci_isNamed "main") hs Hm1
  have hc1 : countB (isNamed "main") (removeFirstL isInjectedStyle hs) = 0 :=
    countB_eq_zero_of_allB _ _ hhsP
  have hc2 : countB (isNamed "main") pre = 0 := countB_eq_zero_of_allB _ _ Hm2
  have hc3 : countB (isNamed "main") post = 0 := countB_eq_zero_of_allB _ _ Hm3
  have hc4 : countB (isNamed "main") rcs = 0 := countB_eq_zero_of_allB _ _ Hm4
  have hcountMain : countB (isNamed "main")
      [Node.elem "html" ha
        [Node.elem "head" hda (removeFirstL isInjectedStyle hs ++ [styleTag]),
          Node.elem "body" ba (pre ++ Node.elem "main" ra rcs :: post)]] = 1 := by
    simp [countB, countN, countB_append, isNamed, styleTag, hc1, hc2, hc3, hc4]
  have hfindMain : findFirstL (isNamed "main")
      [Node.elem "html" ha
        [Node.elem "head" hda (removeFirstL isInjectedStyle hs ++ [styleTag]),
          Node.elem "body" ba (pre ++ Node.elem "main" ra rcs :: post)]]
      = some (Node.elem "main" ra rcs) := by
    have hnoneHead : findFirstL (isNamed "main")
        (removeFirstL isInjectedStyle hs ++ [styleTag]) = none := by
      apply findFirstL_eq_none_of_allB
      rw [allB_append, hhsP]
      simp [allB, allN, styleTag, isNamed]
    have hnonePre : findFirstL (isNamed "main")
        (pre ++ Node.elem "main" ra rcs :: post)
        = findFirstL (isNamed "main") (Node.elem "main" ra rcs :: post) :=
      findFirstL_append_of_allB _ _ _ Hm2
    simp [findFirstL, findFirstN, isNamed, hnoneHead, hnonePre]
  have hciS : ChildIndep isInjectedStyle := fun _ _ _ _ => rfl
  have hs0 : countB isInjectedStyle (removeFirstL isInjectedStyle hs) = 0 :=
    countB_removeFirstL_eq_zero isInjectedStyle hciS hs Hs1
  have hs2 : countB isInjectedStyle pre = 0 := countB_eq_zero_of_allB _ _ Hs2
  have hs3 : countB isInjectedStyle post = 0 := countB_eq_zero_of_allB _ _ Hs3
  have hs4 : countB isInjectedStyle rcs = 0 := countB_eq_zero_of_allB _ _ Hs4
  have hcountStyle : countB isInjectedStyle
      [Node.elem "html" ha
        [Node.elem "head" hda (removeFirstL isInjectedStyle hs ++ [styleTag]),
          Node.elem "body" ba (pre ++ Node.elem "main" ra rcs :: post)]] = 1 := by
    simp [countB, countN, countB_append, isInjectedStyle, isNamed, getAttr,
      styleTag, ACCESSIBLE_CSS, styleId, lookupA, hs0, hs2, hs3, hs4]
  rw [hmod] at hok
  exact ⟨hok, hcountMain, hfindMain, hcountStyle⟩

/-- Witness for C1 at the spec's example: `<main id="x">OLD</main>`
replaced by `<main class="a11y-page" role="main">NEW</main>`. -/
theorem c1_splice_correctness_witness :
    allB (fun n => !(isNamed "main" n)) [Node.text "NEW"] = true
    ∧ countB (isNamed "main")
        [Node.elem "html" []
          [Node.elem "head" [] (removeFirstL isInjectedStyle [] ++ [styleTag]),
            Node.elem "body" []
              ([] ++ Node.elem "main" [("class", "a11y-page"), ("role", "main")]
                [Node.text "NEW"] :: [])]] = 1
    ∧ countB isInjectedStyle
        [Node.elem "html" []
          [Node.elem "head" [] (removeFirstL isInjectedStyle [] ++ [styleTag]),
            Node.elem "body" []
              ([] ++ Node.elem "main" [("class", "a11y-page"), ("role", "main")]
                [Node.text "NEW"] :: [])]] = 1 :=
  ⟨rfl,
    (c1_splice_correctness [] [] [] [("id", "x")]
      [("class", "a11y-page"), ("role", "main")] [] [] [] [Node.text "OLD"]
      [Node.text "NEW"] rfl rfl rfl rfl (by decide) rfl rfl rfl).2.1,
    (c1_splice_correctness [] [] [] [("id", "x")]
      [("class", "a11y-page"), ("role", "main")] [] [] [] [Node.text "OLD"]
      [Node.text "NEW"] rfl rfl rfl rfl (by decide) rfl rfl rfl).2.2.2⟩
